import Mathlib

/-!
Proxy server: a shallow embedding of the connection engine.

Sources embedded here:

* `src/proxy/proxy.cpp`: `write_some`, `connect_to_server`, `client_on_read`,
  `server_on_read`, `make_request` (with its validating and draining handlers),
  `try_to_cache`, the destructor of `proxy_tcp_connection`;
* `src/proxy/proxy.hpp`: `write_part`, `tcp_connection::write`, the `resolver`
  worker's cache keys, the user-event handler `host_resolfed_f`.

Byte strings (`std::string`) are lists of characters.  System calls are
modelled by passing their result in as an argument.
-/

namespace Proxy

/-- A `std::string`. -/
abbrev Text := List Char

/-! ## Write buffer (`write_part`, `tcp_connection::write`, `write_some`) -/

/-- The struct `write_part` of `proxy.hpp`: a text and the number of its bytes
already written. -/
structure write_part where
  text : Text
  writted : Nat
  deriving DecidableEq, Repr

/-- The constructor `write_part(std::string text)`: nothing written yet. -/
def write_part.new (text : Text) : write_part := { text := text, writted := 0 }

/-- The method `get_part_text`: `text.data() + writted`. -/
def write_part.get_part_text (p : write_part) : Text := p.text.drop p.writted

/-- The method `get_part_size`: `text.size() - writted`. -/
def write_part.get_part_size (p : write_part) : Nat := p.text.length - p.writted

/-- The struct `tcp_client` as far as `write_some` uses it: the socket and its
queue of pending slices. -/
structure tcp_client where
  ident : Int
  msg_queue : List write_part
  deriving DecidableEq, Repr

/-- Modelled from the spec: the reactor `io_queue` (kqueue.hpp is not under
src/), reduced to the idents that have a write-readiness (`EVFILT_WRITE`)
handler registered. -/
structure io_queue where
  write_handlers : List Int
  deriving DecidableEq, Repr

/-- Modelled from the spec: `add_event_handler(ident, EVFILT_WRITE, _)`. -/
def io_queue.add_event_handler (q : io_queue) (ident : Int) : io_queue :=
  { write_handlers := ident :: q.write_handlers.filter (fun i => i != ident) }

/-- Modelled from the spec: `delete_event_handler(ident, EVFILT_WRITE)`. -/
def io_queue.delete_event_handler (q : io_queue) (ident : Int) : io_queue :=
  { write_handlers := q.write_handlers.filter (fun i => i != ident) }

/-- Whether a write-readiness handler is registered for `ident`. -/
def io_queue.registered (q : io_queue) (ident : Int) : Bool :=
  q.write_handlers.contains ident

/-- The value of `errno` for a broken pipe. -/
def EPIPE : Nat := 32

/-- The result of the system call `::write`: a byte count, or `-1` with an
`errno`. -/
inductive write_result where
  | ok (n : Nat)
  | fail (errno : Nat)
  deriving DecidableEq, Repr

/-- The outcome of one run of `write_some`: the socket's queue, the reactor, and
the bytes the socket accepted. -/
structure write_outcome where
  dest : tcp_client
  queue : io_queue
  handed : Text
  deriving DecidableEq, Repr

/-- The method `tcp_connection::write` of `proxy.hpp` on the deque selected for
`fd`: the slice is appended, and a write-readiness handler is registered when
the deque was empty. -/
def tcp_connection_write (dest : tcp_client) (queue : io_queue) (text : Text) :
    tcp_client × io_queue :=
  if dest.msg_queue.isEmpty then
    ({ dest with msg_queue := dest.msg_queue ++ [write_part.new text] },
      queue.add_event_handler dest.ident)
  else
    ({ dest with msg_queue := dest.msg_queue ++ [write_part.new text] }, queue)

/-- The function `write_some` of `proxy.cpp` (the same body is the handler that
`tcp_connection::write` registers).  `res` is what `::write` returns for the
head slice; an `errno` other than `EPIPE` is thrown. -/
def write_some (dest : tcp_client) (queue : io_queue) (ident : Int) (res : write_result) :
    Except Nat write_outcome :=
  match dest.msg_queue with
  | [] => .ok { dest := dest, queue := queue.delete_event_handler ident, handed := [] }
  | part :: rest =>
    match res with
    | .fail errno =>
      if errno != EPIPE then
        .error errno
      else if part.get_part_size != 0 then
        .ok { dest := { dest with msg_queue := part :: rest }, queue := queue, handed := [] }
      else
        .ok { dest := { dest with msg_queue := rest }, queue := queue, handed := [] }
    | .ok writted =>
      let part' : write_part := { part with writted := part.writted + writted }
      if part'.get_part_size != 0 then
        .ok { dest := { dest with msg_queue := part' :: rest }, queue := queue,
              handed := part.get_part_text.take writted }
      else
        .ok { dest := { dest with msg_queue := rest }, queue := queue,
              handed := part.get_part_text.take writted }

/-- The unwritten remainders of the queued slices, in queue order. -/
def remainders (q : List write_part) : Text :=
  (q.map write_part.get_part_text).flatten

/-- The size of the head slice that `write_some` hands to `::write`. -/
def head_size (dest : tcp_client) : Nat :=
  match dest.msg_queue with
  | [] => 0
  | part :: _ => part.get_part_size

/-- The states of one socket reachable from an empty queue with no handler by
enqueue operations and write-ready events whose `::write` succeeds with a count
of at most the size it was given.  The last two indices record the bytes handed
to the socket so far and the texts enqueued so far. -/
inductive write_reachable (ident : Int) : tcp_client → io_queue → Text → Text → Prop where
  | init : write_reachable ident { ident := ident, msg_queue := [] } { write_handlers := [] } [] []
  | enqueue {dest queue handed enqueued} (text : Text) :
      write_reachable ident dest queue handed enqueued →
      write_reachable ident (tcp_connection_write dest queue text).1
        (tcp_connection_write dest queue text).2 handed (enqueued ++ text)
  | write_ready {dest queue handed enqueued} (n : Nat) (o : write_outcome) :
      write_reachable ident dest queue handed enqueued →
      n ≤ head_size dest →
      write_some dest queue ident (.ok n) = .ok o →
      write_reachable ident o.dest o.queue (handed ++ o.handed) enqueued

/-- The states of one socket reachable by enqueue operations and write-ready
events with any result of `::write` that does not make `write_some` throw. -/
inductive socket_reachable (ident : Int) : tcp_client → io_queue → Prop where
  | init : socket_reachable ident { ident := ident, msg_queue := [] } { write_handlers := [] }
  | enqueue {dest queue} (text : Text) :
      socket_reachable ident dest queue →
      socket_reachable ident (tcp_connection_write dest queue text).1
        (tcp_connection_write dest queue text).2
  | write_ready {dest queue} (res : write_result) (o : write_outcome) :
      socket_reachable ident dest queue →
      write_some dest queue ident res = .ok o →
      socket_reachable ident o.dest o.queue

/-! ## HTTP messages and caches (interfaces that are not under src/) -/

/-- The interface of `new_http_handler.hpp`, which is not under src/, taken as
a parameter: the two message accumulators `request` and `response` with the
methods the engine calls, and the values of the parse states it compares
with. -/
structure http_handler (Request Response : Type) where
  BAD : Nat
  FIRST_LINE : Nat
  FULL_BODY : Nat
  request_new : Text → Request
  request_add_part : Request → Text → Request
  request_get_state : Request → Nat
  request_get_host : Request → Text
  request_get_URI : Request → Text
  request_get_method : Request → Text
  request_is_validating : Request → Bool
  request_get_request_text : Request → Text
  response_new : Text → Response
  response_add_part : Response → Text → Response
  response_get_state : Response → Nat
  response_get_code : Response → Text
  response_is_cacheable : Response → Bool
  response_get_text : Response → Text
  response_get_validating_request : Response → Text → Text → Request

/-- Modelled from the spec: the bounded cache `lru_cache` (utils.hpp is not
under src/), its entries listed from the most recently used to the least. -/
structure lru_cache (V : Type) where
  capacity : Nat
  entries : List (Text × V)

/-- Modelled from the spec: `contain(k)`. -/
def lru_cache.contain {V : Type} (c : lru_cache V) (k : Text) : Bool :=
  c.entries.any (fun e => e.1 == k)

/-- Modelled from the spec: `get(k)`, which updates recency; `none` stands for
a key that is absent. -/
def lru_cache.get {V : Type} (c : lru_cache V) (k : Text) : Option (V × lru_cache V) :=
  match c.entries.find? (fun e => e.1 == k) with
  | none => none
  | some e => some (e.2, { c with entries := e :: c.entries.filter (fun x => x.1 != k) })

/-- Modelled from the spec: `put(k, v)`, which evicts the least recently used
entry when the cache is at capacity. -/
def lru_cache.put {V : Type} (c : lru_cache V) (k : Text) (v : V) : lru_cache V :=
  { c with entries := ((k, v) :: c.entries.filter (fun x => x.1 != k)).take c.capacity }

/-! ## Host and port (`client_on_read`, `resolver`) -/

/-- The method `std::string::find` for a single character; `none` is `npos`. -/
def string_find (c : Char) : Text → Option Nat
  | [] => none
  | x :: xs => if x == c then some 0 else (string_find c xs).map (fun i => i + 1)

/-- Lines 163-169 of `proxy.cpp` (and 104-109 of `proxy.hpp`): the port is "80"
unless the name has a ':', in which case the port is `substr(port_str + 1)` and
the host is what `erase(port_str)` leaves. -/
def split_host_port (host : Text) : Text × Text :=
  match string_find ':' host with
  | none => (host, "80".toList)
  | some port_str => (host.take port_str, host.drop (port_str + 1))

/-- The key `host + port` under which `client_on_read` consults `addr_cache`. -/
def addr_cache_key (host port : Text) : Text := host ++ port

/-- The result of `getaddrinfo`: an error code or an address. -/
abbrev addrinfo := Nat

/-- One pass of the `resolver` worker of `proxy.hpp` (lines 81-130) for a
request that is not canceled: `name` is the connection's host; the worker
answers from its cache when `cache.contain(name)`, and otherwise calls
`getaddrinfo(host, port)` and stores the result with `cache.put(name, *res)`
after `name` has lost its port.  Returns the address set on the connection (if
any) and the worker's cache. -/
def resolver (cache : lru_cache addrinfo) (name : Text)
    (getaddrinfo : Text → Text → Except Nat addrinfo) : Option addrinfo × lru_cache addrinfo :=
  if cache.contain name then
    match cache.get name with
    | some (res, cache') => (some res, cache')
    | none => (none, cache)
  else
    let port : Text := (split_host_port name).2
    let name : Text := (split_host_port name).1
    match getaddrinfo name port with
    | .error _ => (none, cache)
    | .ok res => (some res, cache.put name res)

/-! ## The connection engine (`proxy_server::proxy_tcp_connection`) -/

/-- The struct `parse_state`: a resolution request, with the connection it
belongs to and its `canceled` flag. -/
structure parse_state where
  connection : Nat
  canceled : Bool
  deriving DecidableEq, Repr

/-- The on-read callback installed on the upstream socket by
`set_server_on_read_write`: `server_on_read`, the validating handler of
`make_request` (which captures `cache_response`), or its draining handler. -/
inductive on_read_handler (Response : Type) where
  | server_on_read
  | validating (cache_response : Response)
  | draining

/-- The fields of `proxy_tcp_connection`. `self` is `this`; `state` points into
the server's resolution requests. -/
structure proxy_tcp_connection (Request Response : Type) where
  self : Nat
  client : tcp_client
  server : tcp_client
  request : Option Request
  response : Option Response
  host : Text
  URI : Text
  client_addr : addrinfo
  state : Option Nat
  on_read : Option (on_read_handler Response)

/-- The state of `proxy_server` that the engine touches: the live connections,
the two caches, the queue `host_names` of resolution requests handed to the
resolvers, and the resolution requests allocated so far (a request is named by
its position in `states`). -/
structure proxy_server (Response : Type) where
  connections : List Nat
  cache : lru_cache Response
  addr_cache : lru_cache addrinfo
  host_names : List Nat
  states : List parse_state

/-- What the engine does to the outside, in order. -/
inductive effect where
  | timer_restart
  | send (ident : Int) (text : Text)
  | open_socket (addr : addrinfo) (ident : Int)
  | deregistrate (ident : Int)
  deriving DecidableEq, Repr

/-- One connection in its server: the server, the reactor, the connection
`this`, the effects so far, and the descriptor the next `socket()` returns. -/
structure world (Request Response : Type) where
  proxy : proxy_server Response
  queue : io_queue
  conn : proxy_tcp_connection Request Response
  log : List effect
  next_ident : Nat

/-- What stops a handler: `throw_error(errno, _)`, or the use of a null
`request` or of a cache entry that is absent. -/
inductive failure where
  | throw_error (errno : Nat)
  | null_request
  deriving DecidableEq, Repr

/-- The value of `errno` for "try again". -/
def EAGAIN : Nat := 35

/-- The event a handler receives: `ident`, whether `flags` has `EV_EOF`, and
`data`. -/
structure kevent where
  ident : Int
  EV_EOF : Bool
  data : Nat
  deriving DecidableEq, Repr

/-- The result of `read` or `recv`: the bytes read, or `-1` with an `errno`. -/
inductive recv_result where
  | ok (buff : Text)
  | fail (errno : Nat)
  deriving DecidableEq, Repr

/-- The reply of `client_on_read` to a request in state `BAD`. -/
def bad_request : Text := "HTTP/1.1 400 Bad Request\r\n\r\n".toList

section engine

variable {Request Response : Type}

/-- Append an effect to the log. -/
def world.emit (w : world Request Response) (e : effect) : world Request Response :=
  { w with log := w.log ++ [e] }

/-- The destructor `~proxy_tcp_connection`: `if (state) state->canceled = true`. -/
def destructor (w : world Request Response) : world Request Response :=
  match w.conn.state with
  | none => w
  | some r =>
    match w.proxy.states[r]? with
    | none => w
    | some ps =>
      { w with proxy := { w.proxy with
          states := w.proxy.states.set r { ps with canceled := true } } }

/-- The call `proxy.connections.erase(this)`, which destroys the connection. -/
def erase_this (w : world Request Response) : world Request Response :=
  destructor { w with proxy := { w.proxy with
    connections := w.proxy.connections.filter (fun c => c != w.conn.self) } }

/-- Modelled from the spec: `write_to_client`, whose body is not under src/:
the enqueue operation of the write buffer on the client socket, as
`tcp_connection::write` of `proxy.hpp` does it. -/
def write_to_client (w : world Request Response) (text : Text) : world Request Response :=
  { w with
    conn := { w.conn with client := (tcp_connection_write w.conn.client w.queue text).1 },
    queue := (tcp_connection_write w.conn.client w.queue text).2 }

/-- Modelled from the spec: `write_to_server`, whose body is not under src/:
the enqueue operation of the write buffer on the upstream socket, as
`tcp_connection::write` of `proxy.hpp` does it. -/
def write_to_server (w : world Request Response) (text : Text) : world Request Response :=
  { w with
    conn := { w.conn with server := (tcp_connection_write w.conn.server w.queue text).1 },
    queue := (tcp_connection_write w.conn.server w.queue text).2 }

/-- Modelled from the spec: `deregistrate(server)`, whose body is not under
src/: the handlers of the upstream socket leave the reactor. -/
def deregistrate_server (w : world Request Response) : world Request Response :=
  { w with queue := w.queue.delete_event_handler w.conn.server.ident,
           log := w.log ++ [effect.deregistrate w.conn.server.ident] }

/-- The assignment `server = client_socket()`: no upstream socket. -/
def reset_server (w : world Request Response) : world Request Response :=
  { w with conn := { w.conn with server := { ident := -1, msg_queue := [] } } }

/-- Modelled from the spec: `set_server_on_read_write(on_read, on_write)`,
whose body is not under src/: the callback pair of the upstream socket is
replaced (the on-write callback is `server_on_write` at every call). -/
def set_server_on_read_write (w : world Request Response) (h : on_read_handler Response) :
    world Request Response :=
  { w with conn := { w.conn with on_read := some h } }

/-- The method `try_to_cache`. -/
def try_to_cache (H : http_handler Request Response) (w : world Request Response) :
    world Request Response :=
  match w.conn.response with
  | none => w
  | some resp =>
    if H.response_is_cacheable resp then
      { w with proxy := { w.proxy with
          cache := w.proxy.cache.put (w.conn.host ++ w.conn.URI) resp } }
    else w

/-- The tail of `connect_to_server` (lines 117-125): a new upstream socket is
opened to `client_addr`, host and URI are remembered, and `server_on_read` is
installed. -/
def open_server (H : http_handler Request Response) (req : Request)
    (w : world Request Response) : world Request Response :=
  set_server_on_read_write
    { w with
      conn := { w.conn with
        server := { ident := (w.next_ident : Int), msg_queue := [] },
        host := H.request_get_host req,
        URI := H.request_get_URI req },
      log := w.log ++ [effect.open_socket w.conn.client_addr (w.next_ident : Int)],
      next_ident := w.next_ident + 1 }
    .server_on_read

/-- The method `connect_to_server`. -/
def connect_to_server (H : http_handler Request Response) (w : world Request Response) :
    Except failure (world Request Response) :=
  match w.conn.request with
  | none => .error .null_request
  | some req =>
    if w.conn.server.ident != -1 then
      if H.request_get_host req == w.conn.host then
        let w := try_to_cache H w
        .ok { w with conn := { w.conn with response := none, URI := H.request_get_URI req } }
      else
        .ok (open_server H req (deregistrate_server w))
    else
      .ok (open_server H req w)

/-- The method `make_request`. -/
def make_request (H : http_handler Request Response) (w : world Request Response) :
    Except failure (world Request Response) :=
  match w.conn.request with
  | none => .error .null_request
  | some req =>
    let key := H.request_get_host req ++ H.request_get_URI req
    if !H.request_is_validating req && w.proxy.cache.contain key then
      match w.proxy.cache.get key with
      | none => .error .null_request
      | some (cache_response, cache') =>
        let req' := H.response_get_validating_request cache_response
          (H.request_get_URI req) (H.request_get_host req)
        let w := { w with proxy := { w.proxy with cache := cache' } }
        let w := set_server_on_read_write w (.validating cache_response)
        let w := write_to_server w (H.request_get_request_text req')
        .ok { w with conn := { w.conn with request := none } }
    else
      let w := write_to_server w (H.request_get_request_text req)
      .ok { w with conn := { w.conn with request := none } }

/-- The bytes of a read go to the message under construction: a new one when
there is none (`reset(new ...)`), `add_part` otherwise. -/
def feed_request (H : http_handler Request Response) (r : Option Request) (buff : Text) :
    Request :=
  match r with
  | some req => H.request_add_part req buff
  | none => H.request_new buff

/-- The same for the response. -/
def feed_response (H : http_handler Request Response) (r : Option Response) (buff : Text) :
    Response :=
  match r with
  | some resp => H.response_add_part resp buff
  | none => H.response_new buff

/-- The method `client_on_read`; `r` is what `read` returns. -/
def client_on_read (H : http_handler Request Response) (w : world Request Response)
    (event : kevent) (r : recv_result) : Except failure (world Request Response) :=
  if event.EV_EOF then
    .ok (erase_this w)
  else
    let w := w.emit .timer_restart
    match r with
    | .fail errno => .error (.throw_error errno)
    | .ok buff =>
      let req := feed_request H w.conn.request buff
      let w := { w with conn := { w.conn with request := some req } }
      if H.request_get_state req == H.BAD then
        .ok (erase_this (w.emit (.send w.conn.client.ident bad_request)))
      else if H.request_get_state req == H.FULL_BODY then
        let host := (split_host_port (H.request_get_host req)).1
        let port := (split_host_port (H.request_get_host req)).2
        if w.proxy.addr_cache.contain (addr_cache_key host port)
            && H.request_get_method req != "CONNECT".toList then
          match w.proxy.addr_cache.get (addr_cache_key host port) with
          | none => .error .null_request
          | some (addr, addr_cache') =>
            let w := { w with
              proxy := { w.proxy with addr_cache := addr_cache' },
              conn := { w.conn with client_addr := addr } }
            match connect_to_server H w with
            | .error e => .error e
            | .ok w => make_request H w
        else
          let temp := w.proxy.states.length
          .ok { w with
            proxy := { w.proxy with
              states := w.proxy.states ++ [{ connection := w.conn.self, canceled := false }],
              host_names := w.proxy.host_names ++ [temp] },
            conn := { w.conn with state := some temp } }
      else
        .ok w

/-- The method `server_on_read`; `r` is what `recv` returns. -/
def server_on_read (H : http_handler Request Response) (w : world Request Response)
    (event : kevent) (r : recv_result) : Except failure (world Request Response) :=
  if event.EV_EOF && event.data == 0 then
    .ok (reset_server (deregistrate_server (try_to_cache H w)))
  else
    let w := w.emit .timer_restart
    match r with
    | .fail errno => if errno == EAGAIN then .ok w else .error (.throw_error errno)
    | .ok buff =>
      let resp := feed_response H w.conn.response buff
      let w := { w with conn := { w.conn with response := some resp } }
      .ok (write_to_client w buff)

/-- The on-read handler that `make_request` installs on the cache path (lines
257-301 of `proxy.cpp`), with its captured `cache_response`. -/
def validating_on_read (H : http_handler Request Response) (cache_response : Response)
    (w : world Request Response) (event : kevent) (r : recv_result) :
    Except failure (world Request Response) :=
  if event.EV_EOF && event.data == 0 then
    .ok (reset_server (deregistrate_server (try_to_cache H w)))
  else
    let w := w.emit .timer_restart
    match r with
    | .fail errno => .error (.throw_error errno)
    | .ok buff =>
      let resp := feed_response H w.conn.response buff
      let w := { w with conn := { w.conn with response := some resp } }
      if H.response_get_state resp ≥ H.FIRST_LINE then
        if H.response_get_code resp != "200".toList then
          .ok (set_server_on_read_write
            (write_to_client w (H.response_get_text cache_response)) .draining)
        else
          .ok (set_server_on_read_write (write_to_client w buff) .server_on_read)
      else
        .ok w

/-- The on-read handler that the validating handler installs after a status
other than 200 (lines 279-287 of `proxy.cpp`): the bytes of `recv` are
dropped. -/
def draining_on_read (w : world Request Response) (event : kevent) (_r : recv_result) :
    Except failure (world Request Response) :=
  if event.EV_EOF && event.data == 0 then
    .ok (reset_server (deregistrate_server w))
  else
    .ok (w.emit .timer_restart)

/-- A read-readiness event on the upstream socket runs the installed on-read
handler. -/
def upstream_read_event (H : http_handler Request Response) (w : world Request Response)
    (event : kevent) (r : recv_result) : Except failure (world Request Response) :=
  match w.conn.on_read with
  | none => .ok w
  | some .server_on_read => server_on_read H w event r
  | some (.validating cache_response) => validating_on_read H cache_response w event r
  | some .draining => draining_on_read w event r

/-- A run of read-readiness events on the upstream socket, each with the result
of its `recv`. -/
def upstream_read_events (H : http_handler Request Response) :
    world Request Response → List (kevent × recv_result) →
    Except failure (world Request Response)
  | w, [] => .ok w
  | w, (event, r) :: rest =>
    match upstream_read_event H w event r with
    | .error e => .error e
    | .ok w' => upstream_read_events H w' rest

/-- The resolution requests of the connection that are in the queue of the
resolvers and not marked canceled. -/
def pending_resolutions (w : world Request Response) : List Nat :=
  w.proxy.host_names.filter (fun r =>
    match w.proxy.states[r]? with
    | some ps => ps.connection == w.conn.self && !ps.canceled
    | none => false)

end engine

/-! ## An HTTP parser after the spec -/

/-- The line terminator of HTTP. -/
def CRLF : Text := "\r\n".toList

/-- The position of the first occurrence of `pat`, as `std::string::find`. -/
def find_sub (pat : Text) : Text → Option Nat
  | [] => if pat.isEmpty then some 0 else none
  | c :: cs =>
    if pat.isPrefixOf (c :: cs) then some 0 else (find_sub pat cs).map (fun i => i + 1)

/-- The pieces of a text between occurrences of the character `c`. -/
def split_on (c : Char) : Text → List Text
  | [] => [[]]
  | x :: xs =>
    if x == c then [] :: split_on c xs
    else
      match split_on c xs with
      | [] => [[x]]
      | tok :: toks => (x :: tok) :: toks

/-- The lines of a text; the character '\r' ends a line and the '\n' after it is
dropped. -/
def split_lines (t : Text) : List Text :=
  (split_on '\r' t).map (fun l => if l.head? == some '\n' then l.drop 1 else l)

/-- The start line of a message, once its CRLF has arrived. -/
def start_line (t : Text) : Option Text :=
  (find_sub CRLF t).map (fun i => t.take i)

/-- The header block of a message (from the end of the start line to the empty
line) and the body after it, once the empty line has arrived. -/
def headers_and_body (t : Text) : Option (Text × Text) :=
  match find_sub CRLF t, find_sub (CRLF ++ CRLF) t with
  | some i, some j => some ((t.take j).drop (i + 2), t.drop (j + 4))
  | _, _ => none

/-- The value of the header `name` (compared without regard to case) in a
header block. -/
def header_value (name : Text) (block : Text) : Option Text :=
  let key := (name ++ [':']).map Char.toLower
  match (split_lines block).find? (fun l => key.isPrefixOf (l.map Char.toLower)) with
  | none => none
  | some l => some ((l.drop key.length).dropWhile (fun c => c == ' '))

/-- A decimal number. -/
def decimal (t : Text) : Option Nat :=
  if t.isEmpty || !t.all Char.isDigit then none
  else some (t.foldl (fun n c => 10 * n + (c.toNat - 48)) 0)

/-- The parse state of the accumulated bytes `t` of a message (0 incomplete,
1 start line done, 2 headers done, 3 full body, 4 bad), given the test for a
well-formed start line and whether a message without a Content-Length ends with
its headers. -/
def message_state (t : Text) (well_formed : Text → Bool) (ends_with_headers : Bool) : Nat :=
  match start_line t with
  | none => 0
  | some line =>
    if !well_formed line then 4
    else
      match headers_and_body t with
      | none => 1
      | some (block, body) =>
        match header_value "Content-Length".toList block with
        | none => if ends_with_headers then 3 else 2
        | some v =>
          match decimal v with
          | none => 4
          | some n => if body.length < n then 2 else 3

/-- The target of a request line. -/
def request_target (t : Text) : Text :=
  match start_line t with
  | none => []
  | some line => (split_on ' ' line).getD 1 []

/-- The authority and the path of a target in absolute form. -/
def absolute_form (target : Text) : Option (Text × Text) :=
  if "http://".toList.isPrefixOf target then
    let tail := target.drop 7
    match string_find '/' tail with
    | none => some (tail, ['/'])
    | some i => some (tail.take i, tail.drop i)
  else none

/-- Modelled from the spec: the HTTP parser of `new_http_handler.hpp`, which is
not under src/.  A message is its accumulated bytes, so that slices may split
any token.  The parse states are INCOMPLETE = 0, FIRST_LINE = 1 (start line
done), 2 (headers done), FULL_BODY = 3 and BAD = 4; they only advance.  A
request line must have three fields; a body is framed by Content-Length
(chunked bodies are not modelled); a response without a length lasts until the
connection closes.  `get_host` prefers the authority of an absolute URI and
falls back to the Host header; `get_URI` is the origin form; a response is
cacheable when its status is 200, it has an ETag or Last-Modified and its
Cache-Control has neither no-store nor private; the validating request is a
conditional GET with If-None-Match when there is an ETag and
If-Modified-Since otherwise. -/
def spec_http : http_handler Text Text where
  BAD := 4
  FIRST_LINE := 1
  FULL_BODY := 3
  request_new := fun t => t
  request_add_part := fun t part => t ++ part
  request_get_state := fun t =>
    message_state t (fun line => (split_on ' ' line).length == 3) true
  request_get_host := fun t =>
    match absolute_form (request_target t) with
    | some (authority, _) => authority
    | none =>
      if (request_target t).head? == some '/' then
        match headers_and_body t with
        | none => []
        | some (block, _) => (header_value "Host".toList block).getD []
      else request_target t
  request_get_URI := fun t =>
    match absolute_form (request_target t) with
    | some (_, path) => path
    | none => request_target t
  request_get_method := fun t =>
    match start_line t with
    | none => []
    | some line => (split_on ' ' line).headD []
  request_is_validating := fun t =>
    match headers_and_body t with
    | none => false
    | some (block, _) =>
      (header_value "If-None-Match".toList block).isSome
        || (header_value "If-Modified-Since".toList block).isSome
  request_get_request_text := fun t =>
    match start_line t, absolute_form (request_target t) with
    | some line, some (_, path) =>
      (split_on ' ' line).headD [] ++ [' '] ++ path ++ [' ']
        ++ (split_on ' ' line).getD 2 [] ++ t.drop line.length
    | _, _ => t
  response_new := fun t => t
  response_add_part := fun t part => t ++ part
  response_get_state := fun t =>
    message_state t (fun line => 2 ≤ (split_on ' ' line).length) false
  response_get_code := fun t =>
    match start_line t with
    | none => []
    | some line => (split_on ' ' line).getD 1 []
  response_is_cacheable := fun t =>
    match start_line t, headers_and_body t with
    | some line, some (block, _) =>
      (split_on ' ' line).getD 1 [] == "200".toList
        && ((header_value "ETag".toList block).isSome
            || (header_value "Last-Modified".toList block).isSome)
        && (match header_value "Cache-Control".toList block with
            | none => true
            | some v => (find_sub "no-store".toList v).isNone
                && (find_sub "private".toList v).isNone)
    | _, _ => false
  response_get_text := fun t => t
  response_get_validating_request := fun t uri host =>
    let block := match headers_and_body t with
      | none => []
      | some (block, _) => block
    "GET ".toList ++ uri ++ " HTTP/1.1\r\nHost: ".toList ++ host ++ CRLF
      ++ (match header_value "ETag".toList block with
          | some etag => "If-None-Match: ".toList ++ etag
          | none => "If-Modified-Since: ".toList
              ++ (header_value "Last-Modified".toList block).getD [])
      ++ CRLF ++ CRLF

/-! ## Concrete worlds -/

/-- A server with one connection, numbered 1, whose client socket is 4: nothing
read yet, no upstream socket, empty caches. -/
def idle_world : world Text Text :=
  { proxy := { connections := [1],
               cache := { capacity := 10000, entries := [] },
               addr_cache := { capacity := 10000, entries := [] },
               host_names := [],
               states := [] },
    queue := { write_handlers := [] },
    conn := { self := 1,
              client := { ident := 4, msg_queue := [] },
              server := { ident := -1, msg_queue := [] },
              request := none,
              response := none,
              host := [],
              URI := [],
              client_addr := 0,
              state := none,
              on_read := none },
    log := [],
    next_ident := 5 }

/-! ## Runs of upstream reads -/

section runs

variable {Request Response : Type}

/-- Read-readiness events without `EV_EOF` whose `recv` returns the given
slices, one after the other. -/
def data_events (ident : Int) (bs : List Text) : List (kevent × recv_result) :=
  bs.map (fun buff => ({ ident := ident, EV_EOF := false, data := buff.length }, .ok buff))

/-- The response after the given slices have been read into it. -/
def feed_responses (H : http_handler Request Response) :
    Option Response → List Text → Option Response
  | r, [] => r
  | r, buff :: bs => feed_responses H (some (feed_response H r buff)) bs

/-- The status line stays incomplete during the given reads: after each of them
the state of the response is below `FIRST_LINE`. -/
def status_line_incomplete (H : http_handler Request Response) :
    Option Response → List Text → Prop
  | _, [] => True
  | r, buff :: bs =>
    H.response_get_state (feed_response H r buff) < H.FIRST_LINE
      ∧ status_line_incomplete H (some (feed_response H r buff)) bs

end runs

/-- A request of a client for `http://example.test/`. -/
def example_request : Text :=
  "GET http://example.test/ HTTP/1.0\r\nHost: example.test\r\n\r\n".toList

/-- A cacheable response of the origin. -/
def example_response : Text :=
  "HTTP/1.1 200 OK\r\nETag: \"a\"\r\nContent-Length: 2\r\n\r\nhi".toList

/-- The connection of `idle_world` with the request for `http://example.test/`
read, an upstream socket 5 open to `example.test`, and the response cache
holding `example_response` under the key `example.test/`. -/
def connected_world : world Text Text :=
  { idle_world with
    proxy := { idle_world.proxy with
      cache := { capacity := 10000,
                 entries := [("example.test/".toList, example_response)] } },
    conn := { idle_world.conn with
      request := some example_request,
      server := { ident := 5, msg_queue := [] },
      host := "example.test".toList,
      URI := "/".toList,
      on_read := some .server_on_read },
    next_ident := 6 }

/-- The world of `connected_world` after `make_request` has taken the cache
path: the validating handler is installed and no response has been read. -/
def validating_world : world Text Text :=
  match make_request spec_http connected_world with
  | .ok w => w
  | .error _ => connected_world

section runs_aux

variable {Request Response : Type}

/-- The common start of `server_on_read` and of the validating handler on a
successful `recv`: the timer is restarted and the bytes join the response. -/
def collect_response (H : http_handler Request Response) (w : world Request Response)
    (buff : Text) : world Request Response :=
  { w with
    log := w.log ++ [effect.timer_restart],
    conn := { w.conn with response := some (feed_response H w.conn.response buff) } }

end runs_aux

/-- The world of `idle_world` after the client's request for
`http://example.test/` has been read: the address is not in the cache, so a
resolution request is in the queue of the resolvers. -/
def resolving_world : world Text Text :=
  match client_on_read spec_http idle_world
      { ident := 4, EV_EOF := false, data := example_request.length } (.ok example_request) with
  | .ok w => w
  | .error _ => idle_world

/-- A second request of the same client. -/
def pipelined_request : Text :=
  "GET http://example.test/b HTTP/1.0\r\nHost: example.test\r\n\r\n".toList

/-! ## The user-event handler (`host_resolfed_f`) -/

section user_event

variable {Request Response : Type}

/-- The world seen by the handler of the user event: the world of the
connection, the answer FIFO `ans` of `proxy_server` (resolution requests named
as in `states`), and the number of calls of
`queue.trigger_user_event_handler(USER_EVENT_IDENT)` so far. -/
structure answer_world (Request Response : Type) where
  w : world Request Response
  ans : List Nat
  triggered : Nat

/-- The end of `host_resolfed_f` (lines 163-166 of `proxy.hpp`): the user event
is triggered again when `ans` is not empty. -/
def trigger_if_answers (a : answer_world Request Response) : answer_world Request Response :=
  if a.ans.length != 0 then { a with triggered := a.triggered + 1 } else a

/-- The handler `host_resolfed_f` of `proxy.hpp`.  On an empty `ans` it returns;
otherwise it pops the front request; a canceled request is deleted and the
handler returns; for any other request the `state` of its connection is
cleared, `connect_to_server` and `make_request` run, and the user event is
triggered again when `ans` is not empty.  The world holds the one connection
`this`: the two calls on another connection touch nothing of it.  A request
that was never allocated stops the handler. -/
def host_resolfed_f (H : http_handler Request Response) (a : answer_world Request Response) :
    Except failure (answer_world Request Response) :=
  match a.ans with
  | [] => .ok a
  | parse_ed :: ans =>
    let a := { a with ans := ans }
    match a.w.proxy.states[parse_ed]? with
    | none => .error .null_request
    | some ps =>
      if ps.canceled then
        .ok a
      else if ps.connection == a.w.conn.self then
        let w := { a.w with conn := { a.w.conn with state := none } }
        match connect_to_server H w with
        | .error e => .error e
        | .ok w =>
          match make_request H w with
          | .error e => .error e
          | .ok w => .ok (trigger_if_answers { a with w := w })
      else
        .ok (trigger_if_answers a)

end user_event

/-- A world in which two resolution requests have been answered: request 0 of
a connection 2 that was destroyed meanwhile (so the request is canceled), and
request 1 of the connection 1 of `resolving_world`, which waits for it.  The
answer FIFO holds 0 and then 1, and the user event was triggered once. -/
def answered_world : answer_world Text Text :=
  { w := { resolving_world with
      proxy := { resolving_world.proxy with
        host_names := [],
        states := [{ connection := 2, canceled := true },
                   { connection := 1, canceled := false }] },
      conn := { resolving_world.conn with state := some 1 } },
    ans := [0, 1],
    triggered := 1 }

/-- The connection of `connected_world` at the end of an exchange: its request
was sent, and the response of the origin, `example_response`, was read from
the upstream socket 5 and forwarded. -/
def served_world : world Text Text :=
  { connected_world with
    conn := { connected_world.conn with
      request := none,
      response := some example_response } }

/-- The first bytes of the origin's answer in the next exchange. -/
def next_response : Text := "HTTP/1.1 404 Not Found\r\n\r\n".toList

/-! ## Theorems -/

theorem remainders_append (q : List write_part) (text : Text) :
    remainders (q ++ [write_part.new text]) = remainders q ++ text := by
  simp [remainders, write_part.new, write_part.get_part_text]

theorem tcp_connection_write_msg_queue (dest : tcp_client) (queue : io_queue) (text : Text) :
    (tcp_connection_write dest queue text).1.msg_queue
      = dest.msg_queue ++ [write_part.new text] := by
  unfold tcp_connection_write
  split <;> rfl

theorem tcp_connection_write_ident (dest : tcp_client) (queue : io_queue) (text : Text) :
    (tcp_connection_write dest queue text).1.ident = dest.ident := by
  unfold tcp_connection_write
  split <;> rfl

theorem drop_eq_take_append_drop (t : Text) (w n : Nat) :
    t.drop w = (t.drop w).take n ++ t.drop (w + n) := by
  have h : t.drop (w + n) = (t.drop w).drop n := by
    rw [List.drop_drop, Nat.add_comm]
  rw [h, List.take_append_drop]

/-- What `write_some` does with a successful `::write` of `n` bytes of the head
slice. -/
theorem write_some_ok (dest : tcp_client) (queue : io_queue) (ident : Int)
    (part : write_part) (rest : List write_part) (n : Nat)
    (hq : dest.msg_queue = part :: rest) :
    write_some dest queue ident (.ok n) = .ok
      { dest := { dest with msg_queue :=
            if n < part.get_part_size then
              { part with writted := part.writted + n } :: rest
            else rest },
        queue := queue,
        handed := part.get_part_text.take n } := by
  unfold write_some
  rw [hq]
  simp only [write_part.get_part_size]
  by_cases h : n < part.text.length - part.writted
  · have h1 : part.text.length - (part.writted + n) ≠ 0 := by omega
    simp [h, h1]
  · have h1 : part.text.length - (part.writted + n) = 0 := by omega
    simp [h, h1]

/-- C2: on one socket, after any interleaving of enqueue operations and
write-ready events whose write succeeds with a count of at most the size of
the head slice, the bytes handed to the socket followed by the unwritten
remainders of the queued slices equal the concatenation of all enqueued texts;
and each such write hands over the first `n` unwritten bytes of the head slice,
puts the slice back at the front with `n` more bytes marked written when it was
partial, and drops the slice when it was full. -/
theorem write_queue_preserves_bytes (ident : Int) (dest : tcp_client) (queue : io_queue)
    (handed enqueued : Text) (h : write_reachable ident dest queue handed enqueued) :
    handed ++ remainders dest.msg_queue = enqueued ∧
    ∀ (part : write_part) (rest : List write_part) (n : Nat),
      dest.msg_queue = part :: rest → n ≤ part.get_part_size →
      ∃ o, write_some dest queue ident (.ok n) = .ok o ∧
        o.handed = part.get_part_text.take n ∧
        (n < part.get_part_size →
          o.dest.msg_queue = { part with writted := part.writted + n } :: rest) ∧
        (n = part.get_part_size → o.dest.msg_queue = rest) := by
  constructor
  · induction h with
    | init => simp [remainders]
    | enqueue text _ ih =>
      rw [tcp_connection_write_msg_queue, remainders_append, ← List.append_assoc, ih]
    | @write_ready dest queue handed enqueued n o _ hn hstep ih =>
      cases hq : dest.msg_queue with
      | nil =>
        simp only [write_some, hq] at hstep
        cases hstep
        simpa [hq] using ih
      | cons part rest =>
        rw [write_some_ok dest queue ident part rest n hq] at hstep
        cases hstep
        have hn' : n ≤ part.text.length - part.writted := by
          simpa [head_size, hq, write_part.get_part_size] using hn
        rw [hq] at ih
        rw [← ih]
        simp only [remainders, List.map_cons, List.flatten_cons, write_part.get_part_size,
          write_part.get_part_text]
        by_cases hlt : n < part.text.length - part.writted
        · simp only [hlt, if_true, List.map_cons, List.flatten_cons,
            write_part.get_part_text]
          rw [List.append_assoc, ← List.append_assoc (List.take n _),
            ← drop_eq_take_append_drop]
        · have hfull : (List.drop part.writted part.text).length ≤ n := by
            simp only [List.length_drop]; omega
          simp only [hlt, if_false]
          rw [List.take_of_length_le hfull, List.append_assoc]
  · intro part rest n hq _
    refine ⟨_, write_some_ok dest queue ident part rest n hq, rfl, ?_, ?_⟩
    · intro hlt; simp [hlt]
    · intro heq; simp [heq]

/-- C2, at a concrete run: "ab" and "c" are enqueued, one byte is written, then
one more. -/
theorem write_queue_preserves_bytes_witness :
    write_reachable 7
      { ident := 7, msg_queue := [{ text := ['c'], writted := 0 }] }
      { write_handlers := [7] } ['a', 'b'] ['a', 'b', 'c'] ∧
    (['a', 'b'] ++ remainders [({ text := ['c'], writted := 0 } : write_part)]
        = ['a', 'b', 'c'] ∧
      ∀ (part : write_part) (rest : List write_part) (n : Nat),
        [({ text := ['c'], writted := 0 } : write_part)] = part :: rest →
        n ≤ part.get_part_size →
        ∃ o, write_some { ident := 7, msg_queue := [{ text := ['c'], writted := 0 }] }
            { write_handlers := [7] } 7 (.ok n) = .ok o ∧
          o.handed = part.get_part_text.take n ∧
          (n < part.get_part_size →
            o.dest.msg_queue = { part with writted := part.writted + n } :: rest) ∧
          (n = part.get_part_size → o.dest.msg_queue = rest)) :=
  have h : write_reachable 7
      { ident := 7, msg_queue := [{ text := ['c'], writted := 0 }] }
      { write_handlers := [7] } ['a', 'b'] ['a', 'b', 'c'] :=
    write_reachable.write_ready 1 _
      (write_reachable.write_ready 1 _
        (write_reachable.enqueue ['c']
          (write_reachable.enqueue ['a', 'b'] write_reachable.init))
        (by decide) rfl)
      (by decide) rfl
  ⟨h, write_queue_preserves_bytes 7 _ _ _ _ h⟩

/-- C3, as stated, fails: with the slice "a" at the head, a write that fails
with `EPIPE` leaves the queue as it was, the slice still at its head, so the
queue afterwards is not the former queue without its head. -/
theorem write_some_epipe_discards_head_counterexample :
    ¬ ∀ (dest : tcp_client) (queue : io_queue) (ident : Int) (part : write_part)
        (rest : List write_part), dest.msg_queue = part :: rest →
        ∃ o, write_some dest queue ident (.fail EPIPE) = .ok o ∧ o.dest.msg_queue = rest := by
  intro h
  obtain ⟨o, ho, hrest⟩ :=
    h { ident := 5, msg_queue := [write_part.new ['a']] } { write_handlers := [5] } 5
      (write_part.new ['a']) [] rfl
  have hq : o.dest.msg_queue = [write_part.new ['a']] := by
    have : write_some { ident := 5, msg_queue := [write_part.new ['a']] }
        { write_handlers := [5] } 5 (.fail EPIPE)
        = .ok { dest := { ident := 5, msg_queue := [write_part.new ['a']] },
                queue := { write_handlers := [5] }, handed := [] } := rfl
    rw [this] at ho
    cases ho
    rfl
  rw [hq] at hrest
  exact absurd hrest (by decide)

/-- C3, amended: for every non-empty queue, when the write fails with `EPIPE`
no error is raised, nothing is handed to the socket, the reactor is untouched,
and the head slice is put back at the front unchanged if it has unwritten
bytes (it is dropped only if it has none); when the write fails with any other
errno, that errno is raised. -/
theorem write_some_epipe_keeps_head (dest : tcp_client) (queue : io_queue) (ident : Int)
    (part : write_part) (rest : List write_part) (hq : dest.msg_queue = part :: rest) :
    write_some dest queue ident (.fail EPIPE) = .ok
        { dest := { dest with msg_queue :=
              if part.get_part_size ≠ 0 then part :: rest else rest },
          queue := queue, handed := [] } ∧
    ∀ errno, errno ≠ EPIPE → write_some dest queue ident (.fail errno) = .error errno := by
  constructor
  · unfold write_some
    rw [hq]
    by_cases h : part.get_part_size = 0 <;> simp [h]
  · intro errno hne
    unfold write_some
    rw [hq]
    simp [hne]

/-- C3, amended, at a concrete queue: the slice "ab" with one byte written,
followed by the slice "c". -/
theorem write_some_epipe_keeps_head_witness :
    write_some { ident := 5, msg_queue := [{ text := ['a', 'b'], writted := 1 },
          { text := ['c'], writted := 0 }] } { write_handlers := [5] } 5 (.fail EPIPE)
      = .ok { dest := { ident := 5, msg_queue :=
                if (write_part.get_part_size { text := ['a', 'b'], writted := 1 }) ≠ 0 then
                  [{ text := ['a', 'b'], writted := 1 }, { text := ['c'], writted := 0 }]
                else [{ text := ['c'], writted := 0 }] },
              queue := { write_handlers := [5] }, handed := [] } ∧
    ∀ errno, errno ≠ EPIPE →
      write_some { ident := 5, msg_queue := [{ text := ['a', 'b'], writted := 1 },
          { text := ['c'], writted := 0 }] } { write_handlers := [5] } 5 (.fail errno)
        = .error errno :=
  write_some_epipe_keeps_head _ _ 5 { text := ['a', 'b'], writted := 1 }
    [{ text := ['c'], writted := 0 }] rfl

theorem registered_add_event_handler (q : io_queue) (ident : Int) :
    (q.add_event_handler ident).registered ident = true := by
  simp [io_queue.add_event_handler, io_queue.registered]

theorem registered_delete_event_handler (q : io_queue) (ident : Int) :
    (q.delete_event_handler ident).registered ident = false := by
  simp [io_queue.delete_event_handler, io_queue.registered]

/-- In a reachable state the queue belongs to the socket `ident`. -/
theorem socket_reachable_ident (ident : Int) (dest : tcp_client) (queue : io_queue)
    (h : socket_reachable ident dest queue) : dest.ident = ident := by
  induction h with
  | init => rfl
  | enqueue text _ ih => rw [tcp_connection_write_ident, ih]
  | @write_ready dest queue res o _ hstep ih =>
    unfold write_some at hstep
    split at hstep
    · cases hstep; exact ih
    · split at hstep
      · split at hstep
        · cases hstep
        · split at hstep <;> (cases hstep; exact ih)
      · dsimp only at hstep
        split at hstep <;> (cases hstep; exact ih)

/-- The queue of a successful run of `write_some` on a non-empty queue is the
reactor it was given. -/
theorem write_some_queue_of_nonempty (dest : tcp_client) (queue : io_queue) (ident : Int)
    (res : write_result) (o : write_outcome) (hne : dest.msg_queue ≠ [])
    (hstep : write_some dest queue ident res = .ok o) : o.queue = queue := by
  unfold write_some at hstep
  split at hstep
  · rename_i hq; exact absurd hq hne
  · split at hstep
    · split at hstep
      · cases hstep
      · split at hstep <;> (cases hstep; rfl)
    · dsimp only at hstep
      split at hstep <;> (cases hstep; rfl)

/-- C4, as stated, fails: after "a" is enqueued and a write-ready event writes
its one byte, the queue is empty and the write-readiness handler is still
registered. -/
theorem write_handler_iff_nonempty_counterexample :
    ¬ ∀ (ident : Int) (dest : tcp_client) (queue : io_queue),
        socket_reachable ident dest queue →
        (queue.registered ident = true ↔ dest.msg_queue ≠ []) := by
  intro h
  have hr : socket_reachable 7 { ident := 7, msg_queue := [] } { write_handlers := [7] } :=
    socket_reachable.write_ready (.ok 1)
      { dest := { ident := 7, msg_queue := [] }, queue := { write_handlers := [7] },
        handed := ['a'] }
      (socket_reachable.enqueue ['a'] socket_reachable.init) rfl
  have := (h 7 _ _ hr).mp (by decide)
  exact this rfl

/-- C4, amended: in every state reachable by enqueue operations and write-ready
events, a non-empty write queue has a write-readiness handler registered; the
handler is removed by a write-ready event that finds the queue empty, and a
write-ready event on a non-empty queue leaves the registration as it is, also
when its write empties the queue. -/
theorem write_handler_of_nonempty (ident : Int) (dest : tcp_client) (queue : io_queue)
    (h : socket_reachable ident dest queue) :
    (dest.msg_queue ≠ [] → queue.registered ident = true) ∧
    (∀ res o, dest.msg_queue = [] → write_some dest queue ident res = .ok o →
      o.queue.registered ident = false ∧ o.dest.msg_queue = []) ∧
    (∀ res o, dest.msg_queue ≠ [] → write_some dest queue ident res = .ok o →
      o.queue.registered ident = true) := by
  have hinv : dest.msg_queue ≠ [] → queue.registered ident = true := by
    induction h with
    | init => intro hne; exact absurd rfl hne
    | @enqueue dest queue text hr ih =>
      intro _
      have hid := socket_reachable_ident ident dest queue hr
      unfold tcp_connection_write
      split
      · simp only [hid]; exact registered_add_event_handler queue ident
      · rename_i hemp
        apply ih
        intro hq
        exact hemp (by simp [hq])
    | @write_ready dest queue res o hr hstep ih =>
      intro hne
      by_cases hq : dest.msg_queue = []
      · simp only [write_some, hq] at hstep
        cases hstep
        exact absurd hq hne
      · rw [write_some_queue_of_nonempty dest queue ident res o hq hstep]
        exact ih hq
  refine ⟨hinv, ?_, ?_⟩
  · intro res o hq hstep
    simp only [write_some, hq] at hstep
    cases hstep
    exact ⟨registered_delete_event_handler queue ident, hq⟩
  · intro res o hne hstep
    rw [write_some_queue_of_nonempty dest queue ident res o hne hstep]
    exact hinv hne

/-- C4, amended, at a concrete run: "a" is enqueued and its one byte is
written. -/
theorem write_handler_of_nonempty_witness :
    socket_reachable 7 { ident := 7, msg_queue := [] } { write_handlers := [7] } ∧
    ((([] : List write_part) ≠ [] → io_queue.registered { write_handlers := [7] } 7 = true) ∧
    (∀ res o, ([] : List write_part) = [] →
      write_some { ident := 7, msg_queue := [] } { write_handlers := [7] } 7 res = .ok o →
      o.queue.registered 7 = false ∧ o.dest.msg_queue = []) ∧
    (∀ res o, ([] : List write_part) ≠ [] →
      write_some { ident := 7, msg_queue := [] } { write_handlers := [7] } 7 res = .ok o →
      o.queue.registered 7 = true)) :=
  have hr : socket_reachable 7 { ident := 7, msg_queue := [] } { write_handlers := [7] } :=
    socket_reachable.write_ready (.ok 1)
      { dest := { ident := 7, msg_queue := [] }, queue := { write_handlers := [7] },
        handed := ['a'] }
      (socket_reachable.enqueue ['a'] socket_reachable.init) rfl
  ⟨hr, write_handler_of_nonempty 7 _ _ hr⟩

/-! ### The connection engine -/

variable {Request Response : Type}

theorem destructor_fields (w : world Request Response) :
    (destructor w).log = w.log ∧ (destructor w).conn = w.conn ∧ (destructor w).queue = w.queue ∧
    (destructor w).next_ident = w.next_ident ∧
    (destructor w).proxy.host_names = w.proxy.host_names ∧
    (destructor w).proxy.connections = w.proxy.connections ∧
    (destructor w).proxy.states.length = w.proxy.states.length := by
  unfold destructor
  split
  · simp
  · split <;> simp

theorem erase_this_fields (w : world Request Response) :
    (erase_this w).log = w.log ∧ (erase_this w).conn = w.conn ∧ (erase_this w).queue = w.queue ∧
    (erase_this w).next_ident = w.next_ident ∧
    (erase_this w).proxy.host_names = w.proxy.host_names ∧
    (erase_this w).proxy.connections
      = w.proxy.connections.filter (fun c => c != w.conn.self) ∧
    (erase_this w).proxy.states.length = w.proxy.states.length := by
  unfold erase_this
  refine ⟨?_, ?_, ?_, ?_, ?_, ?_, ?_⟩ <;> simp [destructor_fields]

/-- The result of `client_on_read` for a read that leaves the request BAD. -/
theorem client_on_read_bad_eq (H : http_handler Request Response)
    (w : world Request Response) (event : kevent) (buff : Text)
    (heof : event.EV_EOF = false)
    (hbad : H.request_get_state (feed_request H w.conn.request buff) = H.BAD) :
    client_on_read H w event (.ok buff) = .ok (erase_this
      { w with
        log := w.log ++ [effect.timer_restart, effect.send w.conn.client.ident bad_request],
        conn := { w.conn with request := some (feed_request H w.conn.request buff) } }) := by
  unfold client_on_read
  simp only [heof, Bool.false_eq_true, if_false, world.emit]
  simp only [hbad, beq_self_eq_true, if_true, List.append_assoc, List.singleton_append]

/-- C1: in `client_on_read`, for every read after which the parse state of the
request is BAD, the one thing sent to the client is
"HTTP/1.1 400 Bad Request\r\n\r\n", the connection is no longer in the server's
connection set, no resolution request is enqueued or allocated, no socket is
opened, and the upstream socket, both write queues and the reactor are as
before. -/
theorem client_on_read_bad_request (H : http_handler Request Response)
    (w : world Request Response) (event : kevent) (buff : Text)
    (heof : event.EV_EOF = false)
    (hbad : H.request_get_state (feed_request H w.conn.request buff) = H.BAD) :
    ∃ w', client_on_read H w event (.ok buff) = .ok w' ∧
      w'.log = w.log ++ [effect.timer_restart,
        effect.send w.conn.client.ident "HTTP/1.1 400 Bad Request\r\n\r\n".toList] ∧
      w.conn.self ∉ w'.proxy.connections ∧
      w'.proxy.host_names = w.proxy.host_names ∧
      w'.proxy.states.length = w.proxy.states.length ∧
      w'.conn.server = w.conn.server ∧
      w'.conn.client = w.conn.client ∧
      w'.queue = w.queue ∧
      w'.next_ident = w.next_ident := by
  refine ⟨_, client_on_read_bad_eq H w event buff heof hbad, ?_⟩
  simp [erase_this_fields, bad_request]


/-- C1, at the malformed request of the spec: the client sends
"NOTAMETHOD /\r\n\r\n" on a fresh connection. -/
theorem client_on_read_bad_request_witness :
    ∃ w', client_on_read spec_http idle_world { ident := 4, EV_EOF := false, data := 16 }
        (.ok "NOTAMETHOD /\r\n\r\n".toList) = .ok w' ∧
      w'.log = idle_world.log ++ [effect.timer_restart,
        effect.send idle_world.conn.client.ident "HTTP/1.1 400 Bad Request\r\n\r\n".toList] ∧
      idle_world.conn.self ∉ w'.proxy.connections ∧
      w'.proxy.host_names = idle_world.proxy.host_names ∧
      w'.proxy.states.length = idle_world.proxy.states.length ∧
      w'.conn.server = idle_world.conn.server ∧
      w'.conn.client = idle_world.conn.client ∧
      w'.queue = idle_world.queue ∧
      w'.next_ident = idle_world.next_ident :=
  client_on_read_bad_request spec_http idle_world { ident := 4, EV_EOF := false, data := 16 }
    "NOTAMETHOD /\r\n\r\n".toList rfl (by decide)

theorem try_to_cache_fields (H : http_handler Request Response) (w : world Request Response) :
    (try_to_cache H w).log = w.log ∧ (try_to_cache H w).conn = w.conn ∧
    (try_to_cache H w).queue = w.queue ∧ (try_to_cache H w).next_ident = w.next_ident := by
  unfold try_to_cache
  split
  · simp
  · split <;> simp

/-- The result of `connect_to_server` when the upstream socket is open. -/
theorem connect_to_server_open_eq (H : http_handler Request Response)
    (w : world Request Response) (req : Request)
    (hreq : w.conn.request = some req) (hopen : w.conn.server.ident ≠ -1) :
    connect_to_server H w = .ok
      (if H.request_get_host req = w.conn.host then
        { try_to_cache H w with
          conn := { (try_to_cache H w).conn with
            response := none, URI := H.request_get_URI req } }
      else open_server H req (deregistrate_server w)) := by
  unfold connect_to_server
  simp only [hreq]
  rw [if_pos (by simpa using hopen)]
  by_cases hhost : H.request_get_host req = w.conn.host
  · rw [if_pos (by simpa using hhost), if_pos hhost]
  · rw [if_neg (by simpa using hhost), if_neg hhost]

/-- C5: in `connect_to_server`, for every connection whose upstream socket is
open, the upstream socket is kept, with nothing deregistered and no socket
opened, if and only if the host of the new request equals the host remembered
on the connection; otherwise the old socket is deregistered and a new one is
opened; in both cases the host and URI remembered afterwards are those of the
new request. -/
theorem connect_to_server_keeps_socket_iff (H : http_handler Request Response)
    (w : world Request Response) (req : Request)
    (hreq : w.conn.request = some req) (hopen : w.conn.server.ident ≠ -1) :
    ∃ w', connect_to_server H w = .ok w' ∧
      ((w'.conn.server = w.conn.server ∧ w'.log = w.log)
        ↔ H.request_get_host req = w.conn.host) ∧
      (H.request_get_host req ≠ w.conn.host →
        w'.log = w.log ++ [effect.deregistrate w.conn.server.ident,
          effect.open_socket w.conn.client_addr (w.next_ident : Int)] ∧
        w'.conn.server = { ident := (w.next_ident : Int), msg_queue := [] }) ∧
      w'.conn.host = H.request_get_host req ∧
      w'.conn.URI = H.request_get_URI req := by
  refine ⟨_, connect_to_server_open_eq H w req hreq hopen, ?_⟩
  by_cases hhost : H.request_get_host req = w.conn.host
  · simp [try_to_cache_fields, hhost]
  · simp [open_server, set_server_on_read_write, deregistrate_server, hhost]

theorem lru_cache_get_of_contain {V : Type} (c : lru_cache V) (k : Text)
    (h : c.contain k = true) :
    ∃ v c', c.get k = some (v, c') ∧ (k, v) ∈ c.entries := by
  unfold lru_cache.contain at h
  unfold lru_cache.get
  cases hf : c.entries.find? (fun e => e.1 == k) with
  | none =>
    rw [List.find?_eq_none] at hf
    rw [List.any_eq_true] at h
    obtain ⟨e, he, hk⟩ := h
    exact absurd hk (hf e he)
  | some e =>
    have hk := List.find?_some hf
    have hmem := List.mem_of_find?_eq_some hf
    have hk' : e.1 = k := by simpa using hk
    refine ⟨e.2, _, rfl, ?_⟩
    rw [← hk']
    exact hmem

theorem write_to_server_fields (w : world Request Response) (text : Text) :
    (write_to_server w text).conn.server.msg_queue
        = w.conn.server.msg_queue ++ [write_part.new text] ∧
    (write_to_server w text).conn.on_read = w.conn.on_read ∧
    (write_to_server w text).conn.client = w.conn.client ∧
    (write_to_server w text).log = w.log := by
  simp [write_to_server, tcp_connection_write_msg_queue]

/-- The result of `make_request` on the cache path. -/
theorem make_request_cached_eq (H : http_handler Request Response)
    (w : world Request Response) (req : Request) (cache_response : Response)
    (cache' : lru_cache Response) (hreq : w.conn.request = some req)
    (hval : H.request_is_validating req = false)
    (hcont : w.proxy.cache.contain (H.request_get_host req ++ H.request_get_URI req) = true)
    (hget : w.proxy.cache.get (H.request_get_host req ++ H.request_get_URI req)
      = some (cache_response, cache')) :
    make_request H w = .ok
      { write_to_server (set_server_on_read_write
            { w with proxy := { w.proxy with cache := cache' } } (.validating cache_response))
          (H.request_get_request_text (H.response_get_validating_request cache_response
            (H.request_get_URI req) (H.request_get_host req))) with
        conn := { (write_to_server (set_server_on_read_write
            { w with proxy := { w.proxy with cache := cache' } } (.validating cache_response))
          (H.request_get_request_text (H.response_get_validating_request cache_response
            (H.request_get_URI req) (H.request_get_host req)))).conn with request := none } } := by
  unfold make_request
  simp only [hreq, hval, hcont, Bool.not_false, Bool.and_self, if_true, hget]

/-- The result of `make_request` off the cache path. -/
theorem make_request_plain_eq (H : http_handler Request Response)
    (w : world Request Response) (req : Request) (hreq : w.conn.request = some req)
    (hcond : (!H.request_is_validating req
        && w.proxy.cache.contain (H.request_get_host req ++ H.request_get_URI req)) = false) :
    make_request H w = .ok
      { write_to_server w (H.request_get_request_text req) with
        conn := { (write_to_server w (H.request_get_request_text req)).conn with
          request := none } } := by
  unfold make_request
  simp only [hreq, hcond, Bool.false_eq_true, if_false]

/-- C6: in `make_request`, when the request is not a validating one and the
response cache contains the key host+URI, the text enqueued for the upstream is
that of the validating request of the cached entry
(`get_validating_request` at the URI and host of the request) and the
validating handler is installed; in every other case the text enqueued is the
request text of the client's request and the upstream handler is not
replaced. -/
theorem make_request_enqueued_text (H : http_handler Request Response)
    (w : world Request Response) (req : Request) (hreq : w.conn.request = some req) :
    (H.request_is_validating req = false ∧
        w.proxy.cache.contain (H.request_get_host req ++ H.request_get_URI req) = true →
      ∃ cache_response w',
        (H.request_get_host req ++ H.request_get_URI req, cache_response)
          ∈ w.proxy.cache.entries ∧
        make_request H w = .ok w' ∧
        w'.conn.server.msg_queue = w.conn.server.msg_queue ++
          [write_part.new (H.request_get_request_text
            (H.response_get_validating_request cache_response
              (H.request_get_URI req) (H.request_get_host req)))] ∧
        w'.conn.on_read = some (.validating cache_response)) ∧
    (¬ (H.request_is_validating req = false ∧
        w.proxy.cache.contain (H.request_get_host req ++ H.request_get_URI req) = true) →
      ∃ w', make_request H w = .ok w' ∧
        w'.conn.server.msg_queue = w.conn.server.msg_queue ++
          [write_part.new (H.request_get_request_text req)] ∧
        w'.conn.on_read = w.conn.on_read) := by
  constructor
  · rintro ⟨hval, hcont⟩
    obtain ⟨v, c', hget, hmem⟩ := lru_cache_get_of_contain _ _ hcont
    refine ⟨v, _, hmem, make_request_cached_eq H w req v c' hreq hval hcont hget, ?_⟩
    simp [write_to_server_fields, set_server_on_read_write]
  · intro hnot
    have hcond : (!H.request_is_validating req
        && w.proxy.cache.contain (H.request_get_host req ++ H.request_get_URI req)) = false := by
      cases hv : H.request_is_validating req
      · cases hc : w.proxy.cache.contain (H.request_get_host req ++ H.request_get_URI req)
        · rfl
        · exact absurd ⟨hv, hc⟩ hnot
      · rfl
    refine ⟨_, make_request_plain_eq H w req hreq hcond, ?_⟩
    simp [write_to_server_fields]

/-- C5, at a concrete connection: the upstream socket 5 is open to
`example.test` and the new request is for `http://example.test/`. -/
theorem connect_to_server_keeps_socket_iff_witness :
    ∃ w', connect_to_server spec_http connected_world = .ok w' ∧
      ((w'.conn.server = connected_world.conn.server ∧ w'.log = connected_world.log)
        ↔ spec_http.request_get_host example_request = connected_world.conn.host) ∧
      (spec_http.request_get_host example_request ≠ connected_world.conn.host →
        w'.log = connected_world.log ++ [effect.deregistrate connected_world.conn.server.ident,
          effect.open_socket connected_world.conn.client_addr
            (connected_world.next_ident : Int)] ∧
        w'.conn.server = { ident := (connected_world.next_ident : Int), msg_queue := [] }) ∧
      w'.conn.host = spec_http.request_get_host example_request ∧
      w'.conn.URI = spec_http.request_get_URI example_request :=
  connect_to_server_keeps_socket_iff spec_http connected_world example_request rfl (by decide)

/-- C6, at a concrete connection: the request for `http://example.test/` is not
a validating one and the cache holds a response under `example.test/`. -/
theorem make_request_enqueued_text_witness :
    (spec_http.request_is_validating example_request = false ∧
      connected_world.proxy.cache.contain
        (spec_http.request_get_host example_request
          ++ spec_http.request_get_URI example_request) = true) ∧
    ((spec_http.request_is_validating example_request = false ∧
        connected_world.proxy.cache.contain
          (spec_http.request_get_host example_request
            ++ spec_http.request_get_URI example_request) = true →
      ∃ cache_response w',
        (spec_http.request_get_host example_request
            ++ spec_http.request_get_URI example_request, cache_response)
          ∈ connected_world.proxy.cache.entries ∧
        make_request spec_http connected_world = .ok w' ∧
        w'.conn.server.msg_queue = connected_world.conn.server.msg_queue ++
          [write_part.new (spec_http.request_get_request_text
            (spec_http.response_get_validating_request cache_response
              (spec_http.request_get_URI example_request)
              (spec_http.request_get_host example_request)))] ∧
        w'.conn.on_read = some (.validating cache_response)) ∧
    (¬ (spec_http.request_is_validating example_request = false ∧
        connected_world.proxy.cache.contain
          (spec_http.request_get_host example_request
            ++ spec_http.request_get_URI example_request) = true) →
      ∃ w', make_request spec_http connected_world = .ok w' ∧
        w'.conn.server.msg_queue = connected_world.conn.server.msg_queue ++
          [write_part.new (spec_http.request_get_request_text example_request)] ∧
        w'.conn.on_read = connected_world.conn.on_read)) :=
  ⟨by decide, make_request_enqueued_text spec_http connected_world example_request rfl⟩

theorem upstream_read_events_append (H : http_handler Request Response)
    (es₁ es₂ : List (kevent × recv_result)) (w w₁ : world Request Response)
    (h : upstream_read_events H w es₁ = .ok w₁) :
    upstream_read_events H w (es₁ ++ es₂) = upstream_read_events H w₁ es₂ := by
  induction es₁ generalizing w with
  | nil =>
    simp only [upstream_read_events] at h
    cases h
    rfl
  | cons e es ih =>
    obtain ⟨event, r⟩ := e
    simp only [List.cons_append, upstream_read_events] at h ⊢
    cases hstep : upstream_read_event H w event r with
    | error e => rw [hstep] at h; cases h
    | ok w' =>
      rw [hstep] at h
      exact ih w' h

theorem write_to_client_fields (w : world Request Response) (text : Text) :
    (write_to_client w text).conn.client.msg_queue
        = w.conn.client.msg_queue ++ [write_part.new text] ∧
    (write_to_client w text).conn.on_read = w.conn.on_read ∧
    (write_to_client w text).conn.server = w.conn.server ∧
    (write_to_client w text).conn.response = w.conn.response ∧
    (write_to_client w text).log = w.log := by
  simp [write_to_client, tcp_connection_write_msg_queue]

theorem upstream_read_event_validating (H : http_handler Request Response)
    (cache_response : Response) (w : world Request Response) (event : kevent) (r : recv_result)
    (hmode : w.conn.on_read = some (.validating cache_response)) :
    upstream_read_event H w event r = validating_on_read H cache_response w event r := by
  unfold upstream_read_event
  rw [hmode]

theorem upstream_read_event_server_on_read (H : http_handler Request Response)
    (w : world Request Response) (event : kevent) (r : recv_result)
    (hmode : w.conn.on_read = some .server_on_read) :
    upstream_read_event H w event r = server_on_read H w event r := by
  unfold upstream_read_event
  rw [hmode]

theorem upstream_read_event_draining (H : http_handler Request Response)
    (w : world Request Response) (event : kevent) (r : recv_result)
    (hmode : w.conn.on_read = some .draining) :
    upstream_read_event H w event r = draining_on_read w event r := by
  unfold upstream_read_event
  rw [hmode]

/-- The validating handler on a successful read without `EV_EOF`. -/
theorem validating_on_read_data (H : http_handler Request Response)
    (cache_response : Response) (w : world Request Response) (ident : Int) (buff : Text) :
    validating_on_read H cache_response w
        { ident := ident, EV_EOF := false, data := buff.length } (.ok buff)
      = if H.response_get_state (feed_response H w.conn.response buff) ≥ H.FIRST_LINE then
          if H.response_get_code (feed_response H w.conn.response buff) ≠ "200".toList then
            .ok (set_server_on_read_write
              (write_to_client (collect_response H w buff)
                (H.response_get_text cache_response)) .draining)
          else
            .ok (set_server_on_read_write
              (write_to_client (collect_response H w buff) buff) .server_on_read)
        else .ok (collect_response H w buff) := by
  unfold validating_on_read
  simp only [Bool.false_and, Bool.false_eq_true, if_false, world.emit, collect_response]
  split
  · by_cases hc : H.response_get_code (feed_response H w.conn.response buff) = "200".toList
    · simp [hc]
    · simp [hc]
  · rfl

theorem collect_response_fields (H : http_handler Request Response)
    (w : world Request Response) (buff : Text) :
    (collect_response H w buff).conn.client = w.conn.client ∧
    (collect_response H w buff).conn.on_read = w.conn.on_read ∧
    (collect_response H w buff).conn.server = w.conn.server ∧
    (collect_response H w buff).conn.response = some (feed_response H w.conn.response buff) ∧
    (collect_response H w buff).queue = w.queue := by
  simp [collect_response]

/-- While the status line is incomplete the validating handler only collects
the bytes in the response. -/
theorem validating_phase (H : http_handler Request Response) (cache_response : Response)
    (ident : Int) (pre : List Text) (w : world Request Response)
    (hmode : w.conn.on_read = some (.validating cache_response))
    (hpre : status_line_incomplete H w.conn.response pre) :
    ∃ w₁, upstream_read_events H w (data_events ident pre) = .ok w₁ ∧
      w₁.conn.client = w.conn.client ∧
      w₁.conn.on_read = some (.validating cache_response) ∧
      w₁.conn.server = w.conn.server ∧
      w₁.conn.response = feed_responses H w.conn.response pre := by
  induction pre generalizing w with
  | nil => exact ⟨w, rfl, rfl, hmode, rfl, rfl⟩
  | cons buff bs ih =>
    obtain ⟨hlt, hrest⟩ := hpre
    have hstep : upstream_read_event H w
        { ident := ident, EV_EOF := false, data := buff.length } (.ok buff)
        = .ok (collect_response H w buff) := by
      rw [upstream_read_event_validating H cache_response w _ _ hmode,
        validating_on_read_data, if_neg (by omega)]
    have hf := collect_response_fields H w buff
    obtain ⟨w₁, hrun, hc, hm, hs, hr⟩ := ih (collect_response H w buff)
      (by rw [hf.2.1]; exact hmode) (by rw [hf.2.2.2.1]; exact hrest)
    refine ⟨w₁, ?_, ?_, hm, ?_, ?_⟩
    · simp only [data_events, List.map_cons, upstream_read_events, hstep]
      exact hrun
    · rw [hc, hf.1]
    · rw [hs, hf.2.2.1]
    · rw [hr, hf.2.2.2.1]
      rfl

/-- The read that completes the status line with the code 200 is forwarded to
the client, and `server_on_read` is installed. -/
theorem validating_200_step (H : http_handler Request Response) (cache_response : Response)
    (ident : Int) (buff : Text) (w : world Request Response)
    (hmode : w.conn.on_read = some (.validating cache_response))
    (hstate : H.FIRST_LINE ≤ H.response_get_state (feed_response H w.conn.response buff))
    (hcode : H.response_get_code (feed_response H w.conn.response buff) = "200".toList) :
    ∃ w₁, upstream_read_event H w
        { ident := ident, EV_EOF := false, data := buff.length } (.ok buff) = .ok w₁ ∧
      w₁.conn.client.msg_queue = w.conn.client.msg_queue ++ [write_part.new buff] ∧
      w₁.conn.on_read = some .server_on_read := by
  refine ⟨set_server_on_read_write (write_to_client (collect_response H w buff) buff)
      .server_on_read, ?_, ?_⟩
  · rw [upstream_read_event_validating H cache_response w _ _ hmode,
      validating_on_read_data, if_pos hstate, if_neg (by simp [hcode])]
  · simp [set_server_on_read_write, write_to_client_fields, collect_response]

/-- Under `server_on_read` every read is forwarded to the client. -/
theorem server_on_read_phase (H : http_handler Request Response) (ident : Int)
    (post : List Text) (w : world Request Response)
    (hmode : w.conn.on_read = some .server_on_read) :
    ∃ w₁, upstream_read_events H w (data_events ident post) = .ok w₁ ∧
      w₁.conn.client.msg_queue = w.conn.client.msg_queue ++ post.map write_part.new := by
  induction post generalizing w with
  | nil => exact ⟨w, rfl, by simp⟩
  | cons buff bs ih =>
    have hstep : upstream_read_event H w
        { ident := ident, EV_EOF := false, data := buff.length } (.ok buff)
        = .ok (write_to_client (collect_response H w buff) buff) := by
      rw [upstream_read_event_server_on_read H w _ _ hmode]
      unfold server_on_read
      simp only [Bool.false_and, Bool.false_eq_true, if_false, world.emit, collect_response]
    obtain ⟨w₁, hrun, hq⟩ := ih (write_to_client (collect_response H w buff) buff)
      (by simpa [write_to_client_fields, collect_response] using hmode)
    refine ⟨w₁, ?_, ?_⟩
    · simp only [data_events, List.map_cons, upstream_read_events, hstep]
      exact hrun
    · rw [hq]
      simp [write_to_client_fields, collect_response]

/-- C7, what the code does: on the cache-revalidation path, when the reads
`pre` leave the status line incomplete and the read `b` completes it with the
code 200, the slices enqueued for the client are `b` and the later reads
`post`; the bytes of `pre` are enqueued nowhere, so whenever `pre` holds a byte
the bytes enqueued for the client differ from the bytes read from the
upstream. -/
theorem validating_200_forwards_from_status_line (H : http_handler Request Response)
    (cache_response : Response) (ident : Int) (pre : List Text) (b : Text) (post : List Text)
    (w : world Request Response)
    (hmode : w.conn.on_read = some (.validating cache_response))
    (hpre : status_line_incomplete H w.conn.response pre)
    (hstate : H.FIRST_LINE ≤ H.response_get_state
      (feed_response H (feed_responses H w.conn.response pre) b))
    (hcode : H.response_get_code
      (feed_response H (feed_responses H w.conn.response pre) b) = "200".toList) :
    ∃ w', upstream_read_events H w (data_events ident (pre ++ b :: post)) = .ok w' ∧
      w'.conn.client.msg_queue = w.conn.client.msg_queue ++ (b :: post).map write_part.new ∧
      (pre.flatten ≠ [] → (b :: post).flatten ≠ (pre ++ b :: post).flatten) := by
  obtain ⟨w₁, hrun₁, hc₁, hm₁, _, hr₁⟩ := validating_phase H cache_response ident pre w hmode hpre
  obtain ⟨w₂, hrun₂, hq₂, hm₂⟩ := validating_200_step H cache_response ident b w₁ hm₁
    (by rw [hr₁]; exact hstate) (by rw [hr₁]; exact hcode)
  obtain ⟨w₃, hrun₃, hq₃⟩ := server_on_read_phase H ident post w₂ hm₂
  refine ⟨w₃, ?_, ?_, ?_⟩
  · have hsplit : data_events ident (pre ++ b :: post)
        = data_events ident pre ++ data_events ident (b :: post) := by
      simp [data_events]
    rw [hsplit, upstream_read_events_append H _ _ w w₁ hrun₁]
    simp only [data_events, List.map_cons, upstream_read_events, hrun₂]
    exact hrun₃
  · rw [hq₃, hq₂, hc₁]
    simp
  · intro hne heq
    rw [List.flatten_append] at heq
    have hlen := congrArg List.length heq
    rw [List.length_append] at hlen
    have : pre.flatten.length = 0 := by omega
    exact hne (List.length_eq_zero.mp this)

/-- C7, at a concrete run: the origin answers "HTTP/1.1 200 OK\r\n\r\n" in the
two reads "HTTP/1.1 2" and "00 OK\r\n\r\n"; only the second is enqueued for the
client. -/
theorem validating_200_forwards_from_status_line_witness :
    ∃ w', upstream_read_events spec_http validating_world
        (data_events 5 (["HTTP/1.1 2".toList] ++ "00 OK\r\n\r\n".toList :: [])) = .ok w' ∧
      w'.conn.client.msg_queue = validating_world.conn.client.msg_queue
        ++ ("00 OK\r\n\r\n".toList :: []).map write_part.new ∧
      (["HTTP/1.1 2".toList].flatten ≠ [] →
        ("00 OK\r\n\r\n".toList :: []).flatten
          ≠ (["HTTP/1.1 2".toList] ++ "00 OK\r\n\r\n".toList :: []).flatten) :=
  validating_200_forwards_from_status_line spec_http example_response 5
    ["HTTP/1.1 2".toList] "00 OK\r\n\r\n".toList [] validating_world rfl
    ⟨by decide, trivial⟩ (by decide) (by decide)

/-- The draining handler keeps the client's queue and stays installed. -/
theorem draining_phase (H : http_handler Request Response)
    (later : List (kevent × recv_result)) (w : world Request Response)
    (hmode : w.conn.on_read = some .draining) :
    ∃ w₁, upstream_read_events H w later = .ok w₁ ∧
      w₁.conn.client = w.conn.client ∧
      w₁.conn.on_read = some .draining := by
  induction later generalizing w with
  | nil => exact ⟨w, rfl, rfl, hmode⟩
  | cons e es ih =>
    obtain ⟨event, r⟩ := e
    have hstep : upstream_read_event H w event r = draining_on_read w event r :=
      upstream_read_event_draining H w event r hmode
    by_cases heof : (event.EV_EOF && event.data == 0) = true
    · obtain ⟨w₁, hrun, hc, hm⟩ := ih (reset_server (deregistrate_server w))
        (by simpa [reset_server, deregistrate_server] using hmode)
      refine ⟨w₁, ?_, ?_, hm⟩
      · simp only [upstream_read_events, hstep, draining_on_read, heof, if_true]
        exact hrun
      · rw [hc]; simp [reset_server, deregistrate_server]
    · obtain ⟨w₁, hrun, hc, hm⟩ := ih (w.emit .timer_restart)
        (by simpa [world.emit] using hmode)
      refine ⟨w₁, ?_, ?_, hm⟩
      · simp only [upstream_read_events, hstep, draining_on_read, heof, if_false]
        exact hrun
      · rw [hc]; simp [world.emit]

/-- C8: on the cache-revalidation path, when the reads `pre` leave the status
line incomplete and the read `b` completes it with a code other than 200, what
is enqueued for the client is the text of the cached response, once, and
nothing else; the draining handler then installed enqueues nothing for the
client on any later upstream event, and on an upstream EOF it deregisters the
upstream socket and resets it to no socket. -/
theorem validating_not_200_replays_cache (H : http_handler Request Response)
    (cache_response : Response) (ident : Int) (pre : List Text) (b : Text)
    (later : List (kevent × recv_result)) (w : world Request Response)
    (hmode : w.conn.on_read = some (.validating cache_response))
    (hpre : status_line_incomplete H w.conn.response pre)
    (hstate : H.FIRST_LINE ≤ H.response_get_state
      (feed_response H (feed_responses H w.conn.response pre) b))
    (hcode : H.response_get_code
      (feed_response H (feed_responses H w.conn.response pre) b) ≠ "200".toList) :
    ∃ w₁, upstream_read_events H w (data_events ident (pre ++ [b])) = .ok w₁ ∧
      w₁.conn.client.msg_queue = w.conn.client.msg_queue
        ++ [write_part.new (H.response_get_text cache_response)] ∧
      w₁.conn.on_read = some .draining ∧
      ∃ w₂, upstream_read_events H w₁ later = .ok w₂ ∧
        w₂.conn.client.msg_queue = w₁.conn.client.msg_queue ∧
        w₂.conn.on_read = some .draining ∧
        ∀ (event : kevent) (r : recv_result), event.EV_EOF = true → event.data = 0 →
          ∃ w₃, upstream_read_event H w₂ event r = .ok w₃ ∧
            w₃.conn.server = { ident := -1, msg_queue := [] } ∧
            w₃.log = w₂.log ++ [effect.deregistrate w₂.conn.server.ident] ∧
            w₃.conn.client.msg_queue = w₂.conn.client.msg_queue := by
  obtain ⟨w₀, hrun₀, hc₀, hm₀, _, hr₀⟩ := validating_phase H cache_response ident pre w hmode hpre
  have hstep : upstream_read_event H w₀
      { ident := ident, EV_EOF := false, data := b.length } (.ok b)
      = .ok (set_server_on_read_write
          (write_to_client (collect_response H w₀ b) (H.response_get_text cache_response))
          .draining) := by
    rw [upstream_read_event_validating H cache_response w₀ _ _ hm₀,
      validating_on_read_data, hr₀, if_pos hstate, if_pos hcode]
  refine ⟨set_server_on_read_write
      (write_to_client (collect_response H w₀ b) (H.response_get_text cache_response))
      .draining, ?_, ?_, ?_, ?_⟩
  · have hsplit : data_events ident (pre ++ [b])
        = data_events ident pre ++ data_events ident [b] := by
      simp [data_events]
    rw [hsplit, upstream_read_events_append H _ _ w w₀ hrun₀]
    simp only [data_events, List.map_cons, List.map_nil, upstream_read_events, hstep]
  · simp [set_server_on_read_write, write_to_client_fields, collect_response, hc₀]
  · simp [set_server_on_read_write]
  · obtain ⟨w₂, hrun₂, hc₂, hm₂⟩ := draining_phase H later
      (set_server_on_read_write
        (write_to_client (collect_response H w₀ b) (H.response_get_text cache_response))
        .draining) (by simp [set_server_on_read_write])
    refine ⟨w₂, hrun₂, by rw [hc₂], hm₂, ?_⟩
    intro event r heof hdata
    refine ⟨reset_server (deregistrate_server w₂), ?_, ?_, ?_, ?_⟩
    · rw [upstream_read_event_draining H w₂ event r hm₂]
      simp [draining_on_read, heof, hdata]
    · simp [reset_server]
    · simp [reset_server, deregistrate_server]
    · simp [reset_server, deregistrate_server]

/-- C8, at a concrete run: the origin answers "HTTP/1.1 304 Not Modified" in
two reads, then sends more bytes and closes. -/
theorem validating_not_200_replays_cache_witness :
    ∃ w₁, upstream_read_events spec_http validating_world
        (data_events 5 (["HTTP/1.1 3".toList] ++ ["04 Not Modified\r\n\r\n".toList]))
        = .ok w₁ ∧
      w₁.conn.client.msg_queue = validating_world.conn.client.msg_queue
        ++ [write_part.new (spec_http.response_get_text example_response)] ∧
      w₁.conn.on_read = some .draining ∧
      ∃ w₂, upstream_read_events spec_http w₁
          [({ ident := 5, EV_EOF := false, data := 4 }, .ok "late".toList),
           ({ ident := 5, EV_EOF := true, data := 0 }, .ok [])] = .ok w₂ ∧
        w₂.conn.client.msg_queue = w₁.conn.client.msg_queue ∧
        w₂.conn.on_read = some .draining ∧
        ∀ (event : kevent) (r : recv_result), event.EV_EOF = true → event.data = 0 →
          ∃ w₃, upstream_read_event spec_http w₂ event r = .ok w₃ ∧
            w₃.conn.server = { ident := -1, msg_queue := [] } ∧
            w₃.log = w₂.log ++ [effect.deregistrate w₂.conn.server.ident] ∧
            w₃.conn.client.msg_queue = w₂.conn.client.msg_queue :=
  validating_not_200_replays_cache spec_http example_response 5
    ["HTTP/1.1 3".toList] "04 Not Modified\r\n\r\n".toList
    [({ ident := 5, EV_EOF := false, data := 4 }, .ok "late".toList),
     ({ ident := 5, EV_EOF := true, data := 0 }, .ok [])]
    validating_world rfl ⟨by decide, trivial⟩ (by decide) (by decide)

theorem getElem?_append_singleton_of_lt (xs : List parse_state) (x : parse_state) (r : Nat)
    (h : r < xs.length) : (xs ++ [x])[r]? = xs[r]? := by
  rw [List.getElem?_append_left h]

/-- The result of `client_on_read` for a read that completes the request when
the address of its host is not in `addr_cache`. -/
theorem client_on_read_miss_eq (H : http_handler Request Response)
    (w : world Request Response) (event : kevent) (buff : Text)
    (heof : event.EV_EOF = false)
    (hnb : H.request_get_state (feed_request H w.conn.request buff) ≠ H.BAD)
    (hfull : H.request_get_state (feed_request H w.conn.request buff) = H.FULL_BODY)
    (hmiss : w.proxy.addr_cache.contain (addr_cache_key
        (split_host_port (H.request_get_host (feed_request H w.conn.request buff))).1
        (split_host_port (H.request_get_host (feed_request H w.conn.request buff))).2)
      = false) :
    client_on_read H w event (.ok buff) = .ok
      { w with
        proxy := { w.proxy with
          states := w.proxy.states ++ [{ connection := w.conn.self, canceled := false }],
          host_names := w.proxy.host_names ++ [w.proxy.states.length] },
        conn := { w.conn with
          request := some (feed_request H w.conn.request buff),
          state := some w.proxy.states.length },
        log := w.log ++ [effect.timer_restart] } := by
  unfold client_on_read
  simp only [heof, Bool.false_eq_true, if_false, world.emit]
  rw [if_neg (by simpa using hnb), if_pos (by simpa using hfull)]
  simp only [hmiss, Bool.false_and, Bool.false_eq_true, if_false]

/-- C9, what the code does: `client_on_read` does not look at the pending
resolution of the connection.  Whenever a read leaves the request in state
FULL_BODY and the address of its host is not in `addr_cache`, a new resolution
request is allocated and enqueued and `state` is pointed at it; the requests
already in the queue stay there and none is marked canceled, so a connection
with a pending resolution ends up with two. -/
theorem client_on_read_enqueues_another_resolution (H : http_handler Request Response)
    (w : world Request Response) (event : kevent) (buff : Text)
    (heof : event.EV_EOF = false)
    (hnb : H.request_get_state (feed_request H w.conn.request buff) ≠ H.BAD)
    (hfull : H.request_get_state (feed_request H w.conn.request buff) = H.FULL_BODY)
    (hmiss : w.proxy.addr_cache.contain (addr_cache_key
        (split_host_port (H.request_get_host (feed_request H w.conn.request buff))).1
        (split_host_port (H.request_get_host (feed_request H w.conn.request buff))).2)
      = false)
    (hwf : ∀ r ∈ w.proxy.host_names, r < w.proxy.states.length) :
    ∃ w', client_on_read H w event (.ok buff) = .ok w' ∧
      w'.proxy.states
        = w.proxy.states ++ [{ connection := w.conn.self, canceled := false }] ∧
      w'.proxy.host_names = w.proxy.host_names ++ [w.proxy.states.length] ∧
      w'.conn.state = some w.proxy.states.length ∧
      pending_resolutions w' = pending_resolutions w ++ [w.proxy.states.length] ∧
      (pending_resolutions w' ).length = (pending_resolutions w).length + 1 := by
  refine ⟨_, client_on_read_miss_eq H w event buff heof hnb hfull hmiss, rfl, rfl, rfl, ?_⟩
  have hp : pending_resolutions
      ({ w with
        proxy := { w.proxy with
          states := w.proxy.states ++ [{ connection := w.conn.self, canceled := false }],
          host_names := w.proxy.host_names ++ [w.proxy.states.length] },
        conn := { w.conn with
          request := some (feed_request H w.conn.request buff),
          state := some w.proxy.states.length },
        log := w.log ++ [effect.timer_restart] } : world Request Response)
      = pending_resolutions w ++ [w.proxy.states.length] := by
    simp only [pending_resolutions, List.filter_append]
    congr 1
    · apply List.filter_congr
      intro r hr
      rw [getElem?_append_singleton_of_lt _ _ r (hwf r hr)]
    · simp
  rw [hp]
  exact ⟨rfl, by simp⟩

/-- C9, at a concrete run: the client's request for `http://example.test/` is
waiting for its resolution when a second read brings a pipelined request; the
connection then has the two resolution requests 0 and 1 in the queue, neither
canceled. -/
theorem client_on_read_enqueues_another_resolution_witness :
    pending_resolutions resolving_world = [0] ∧
    ∃ w', client_on_read spec_http resolving_world
        { ident := 4, EV_EOF := false, data := pipelined_request.length }
        (.ok pipelined_request) = .ok w' ∧
      w'.proxy.states = resolving_world.proxy.states
        ++ [{ connection := resolving_world.conn.self, canceled := false }] ∧
      w'.proxy.host_names
        = resolving_world.proxy.host_names ++ [resolving_world.proxy.states.length] ∧
      w'.conn.state = some resolving_world.proxy.states.length ∧
      pending_resolutions w'
        = pending_resolutions resolving_world ++ [resolving_world.proxy.states.length] ∧
      (pending_resolutions w').length = (pending_resolutions resolving_world).length + 1 :=
  ⟨by decide,
   client_on_read_enqueues_another_resolution spec_http resolving_world
    { ident := 4, EV_EOF := false, data := pipelined_request.length } pipelined_request
    rfl (by decide) (by decide) (by decide) (by decide)⟩

/-- C10, evaluated on the code: the key `host + port` of `client_on_read` is
the same for the authorities "10.0.0.1:8080" and "10.0.0.180:80", whose hosts
and ports differ; and a `resolver` worker that resolves "example.test:8080"
stores the address under "example.test", so that the key it looks up,
"example.test:8080", is still absent from its cache afterwards. -/
theorem addr_cache_key_not_injective_and_resolver_keys_differ :
    (split_host_port "10.0.0.1:8080".toList = ("10.0.0.1".toList, "8080".toList) ∧
     split_host_port "10.0.0.180:80".toList = ("10.0.0.180".toList, "80".toList) ∧
     addr_cache_key (split_host_port "10.0.0.1:8080".toList).1
         (split_host_port "10.0.0.1:8080".toList).2
       = addr_cache_key (split_host_port "10.0.0.180:80".toList).1
         (split_host_port "10.0.0.180:80".toList).2) ∧
    ((resolver { capacity := 1000, entries := [] } "example.test:8080".toList
        (fun _ _ => .ok 7)).1 = some 7 ∧
     (resolver { capacity := 1000, entries := [] } "example.test:8080".toList
        (fun _ _ => .ok 7)).2.contain "example.test:8080".toList = false ∧
     (resolver { capacity := 1000, entries := [] } "example.test:8080".toList
        (fun _ _ => .ok 7)).2.contain "example.test".toList = true) := by
  refine ⟨⟨?_, ?_, ?_⟩, ?_, ?_, ?_⟩ <;> decide

theorem string_find_none (c : Char) (s : Text) (h : c ∉ s) : string_find c s = none := by
  induction s with
  | nil => rfl
  | cons x xs ih =>
    have hx : x ≠ c := fun e => h (by simp [e])
    have hxs : c ∉ xs := fun e => h (by simp [e])
    simp [string_find, hx, ih hxs]

theorem string_find_some (c : Char) (s : Text) (h : c ∈ s) :
    string_find c s = some (s.takeWhile (fun x => x != c)).length := by
  induction s with
  | nil => simp at h
  | cons x xs ih =>
    by_cases hx : x = c
    · simp [string_find, hx, List.takeWhile]
    · have hxs : c ∈ xs := by
        rcases List.mem_cons.mp h with e | e
        · exact absurd e.symm hx
        · exact e
      have hb : (x != c) = true := by simpa using hx
      simp [string_find, hx, ih hxs, List.takeWhile_cons, hb]

theorem take_length_takeWhile (p : Char → Bool) (s : Text) :
    s.take (s.takeWhile p).length = s.takeWhile p := by
  induction s with
  | nil => rfl
  | cons x xs ih =>
    by_cases hx : p x = true
    · simp [List.takeWhile, hx, ih]
    · simp [List.takeWhile, hx]

theorem drop_length_takeWhile (p : Char → Bool) (s : Text) :
    s.drop (s.takeWhile p).length = s.dropWhile p := by
  induction s with
  | nil => rfl
  | cons x xs ih =>
    by_cases hx : p x = true
    · simp [List.takeWhile, List.dropWhile, hx, ih]
    · simp [List.takeWhile, List.dropWhile, hx]

theorem dropWhile_ne_of_mem (c : Char) (s : Text) (h : c ∈ s) :
    s.dropWhile (fun x => x != c) = c :: (s.dropWhile (fun x => x != c)).drop 1 := by
  induction s with
  | nil => simp at h
  | cons x xs ih =>
    by_cases hx : x = c
    · simp [List.dropWhile_cons, hx]
    · have hxs : c ∈ xs := by
        rcases List.mem_cons.mp h with e | e
        · exact absurd e.symm hx
        · exact e
      have hb : (x != c) = true := by simpa using hx
      rw [List.dropWhile_cons, if_pos hb]
      exact ih hxs

/-- C11: the split of an authority into host and port.  For every authority
without a ':' the host is the whole authority and the port is "80"; for every
authority with a ':' the host is the text before the first ':' (it has no ':'),
the port is the text after that ':', and host, ':' and port together give back
the authority. -/
theorem split_host_port_spec (authority : Text) :
    (':' ∉ authority → split_host_port authority = (authority, "80".toList)) ∧
    (':' ∈ authority →
      (split_host_port authority).1 = authority.takeWhile (fun x => x != ':') ∧
      ':' ∉ (split_host_port authority).1 ∧
      (split_host_port authority).2
        = (authority.dropWhile (fun x => x != ':')).drop 1 ∧
      (split_host_port authority).1 ++ ':' :: (split_host_port authority).2 = authority) := by
  constructor
  · intro h
    simp [split_host_port, string_find_none ':' authority h]
  · intro h
    have hsplit : split_host_port authority
        = (authority.takeWhile (fun x => x != ':'),
           (authority.dropWhile (fun x => x != ':')).drop 1) := by
      simp only [split_host_port, string_find_some ':' authority h, take_length_takeWhile]
      rw [← List.drop_drop, drop_length_takeWhile]
    rw [hsplit]
    refine ⟨rfl, ?_, rfl, ?_⟩
    · intro hmem
      have := List.mem_takeWhile_imp hmem
      simp at this
    · show authority.takeWhile (fun x => x != ':')
          ++ ':' :: (authority.dropWhile (fun x => x != ':')).drop 1 = authority
      rw [← dropWhile_ne_of_mem ':' authority h, List.takeWhile_append_dropWhile]

/-- C11, at two concrete authorities: "example.test", without a port, and
"example.test:8080". -/
theorem split_host_port_spec_witness :
    split_host_port "example.test".toList = ("example.test".toList, "80".toList) ∧
    (split_host_port "example.test:8080".toList).1 = "example.test".toList ∧
    (split_host_port "example.test:8080".toList).2 = "8080".toList ∧
    (split_host_port "example.test:8080".toList).1
      ++ ':' :: (split_host_port "example.test:8080".toList).2 = "example.test:8080".toList :=
  ⟨(split_host_port_spec "example.test".toList).1 (by decide),
   ((split_host_port_spec "example.test:8080".toList).2 (by decide)).1.trans (by decide),
   ((split_host_port_spec "example.test:8080".toList).2 (by decide)).2.2.1.trans (by decide),
   ((split_host_port_spec "example.test:8080".toList).2 (by decide)).2.2.2⟩

/-- With a request at hand `connect_to_server` returns, and keeps the request
and the response of the new-socket path. -/
theorem connect_to_server_ok (H : http_handler Request Response)
    (w : world Request Response) (req : Request) (hreq : w.conn.request = some req) :
    ∃ w', connect_to_server H w = .ok w' ∧ w'.conn.request = some req := by
  unfold connect_to_server
  simp only [hreq]
  split
  · split
    · exact ⟨_, rfl, by simp [try_to_cache_fields, hreq]⟩
    · exact ⟨_, rfl, by simp [open_server, set_server_on_read_write, deregistrate_server, hreq]⟩
  · exact ⟨_, rfl, by simp [open_server, set_server_on_read_write, hreq]⟩

/-- With a request at hand `make_request` returns. -/
theorem make_request_ok (H : http_handler Request Response)
    (w : world Request Response) (req : Request) (hreq : w.conn.request = some req) :
    ∃ w', make_request H w = .ok w' := by
  by_cases hcond : (!H.request_is_validating req
      && w.proxy.cache.contain (H.request_get_host req ++ H.request_get_URI req)) = true
  · have hval : H.request_is_validating req = false := by
      cases hv : H.request_is_validating req
      · rfl
      · simp [hv] at hcond
    have hcont : w.proxy.cache.contain
        (H.request_get_host req ++ H.request_get_URI req) = true := by
      simpa [hval] using hcond
    obtain ⟨v, c', hget, _⟩ := lru_cache_get_of_contain _ _ hcont
    exact ⟨_, make_request_cached_eq H w req v c' hreq hval hcont hget⟩
  · exact ⟨_, make_request_plain_eq H w req hreq (by simpa using hcond)⟩

theorem trigger_if_answers_fields (a : answer_world Request Response) :
    (trigger_if_answers a).ans = a.ans ∧ (trigger_if_answers a).w = a.w ∧
    (trigger_if_answers a).triggered = a.triggered + (if a.ans = [] then 0 else 1) := by
  unfold trigger_if_answers
  cases h : a.ans <;> simp [h]

/-- C12, what the code does: a run of `host_resolfed_f` on a non-empty `ans`
pops exactly the front request.  When that request is canceled the handler
returns at once: the user event is not triggered again, whether or not results
remain in `ans`.  When it is not canceled (and its connection has a request to
send, or is another connection) the handler returns with the user event
triggered again exactly when results remain. -/
theorem host_resolfed_f_pops_one (H : http_handler Request Response)
    (a : answer_world Request Response) (parse_ed : Nat) (rest : List Nat) (ps : parse_state)
    (hans : a.ans = parse_ed :: rest) (hps : a.w.proxy.states[parse_ed]? = some ps) :
    (ps.canceled = true →
      host_resolfed_f H a = .ok { a with ans := rest }) ∧
    (ps.canceled = false →
      (ps.connection ≠ a.w.conn.self ∨ a.w.conn.request ≠ none) →
      ∃ a', host_resolfed_f H a = .ok a' ∧ a'.ans = rest ∧
        a'.triggered = a.triggered + (if rest = [] then 0 else 1)) := by
  constructor
  · intro hc
    unfold host_resolfed_f
    simp only [hans, hps, hc, if_true]
  · intro hc hsend
    unfold host_resolfed_f
    simp only [hans, hps, hc, Bool.false_eq_true, if_false]
    by_cases hself : ps.connection = a.w.conn.self
    · rw [if_pos (by simpa using hself)]
      have hreq : a.w.conn.request ≠ none := by
        rcases hsend with h | h
        · exact absurd hself h
        · exact h
      obtain ⟨req, hreq⟩ := Option.ne_none_iff_exists'.mp hreq
      obtain ⟨w₁, hw₁, hreq₁⟩ := connect_to_server_ok H
        { a.w with conn := { a.w.conn with state := none } } req (by simpa using hreq)
      obtain ⟨w₂, hw₂⟩ := make_request_ok H w₁ req hreq₁
      simp only [hw₁, hw₂]
      exact ⟨_, rfl, by simp [trigger_if_answers_fields], by simp [trigger_if_answers_fields]⟩
    · rw [if_neg (by simpa using hself)]
      exact ⟨_, rfl, by simp [trigger_if_answers_fields], by simp [trigger_if_answers_fields]⟩

/-- C12, at a concrete run: `ans` holds the canceled request 0 and then the
request 1; the handler pops request 0 and returns with request 1 still in `ans`
and the user event not triggered again. -/
theorem host_resolfed_f_pops_one_witness :
    host_resolfed_f spec_http answered_world = .ok { answered_world with ans := [1] } ∧
    ({ answered_world with ans := [1] } : answer_world Text Text).ans ≠ [] ∧
    ({ answered_world with ans := [1] } : answer_world Text Text).triggered
      = answered_world.triggered :=
  ⟨(host_resolfed_f_pops_one spec_http answered_world 0 [1]
      { connection := 2, canceled := true } rfl rfl).1 rfl,
   by decide, rfl⟩
/-- After `make_request` the response is the one before, and the upstream
on-read handler is the one before or a validating handler. -/
theorem make_request_response (H : http_handler Request Response)
    (w : world Request Response) (req : Request) (hreq : w.conn.request = some req) :
    ∃ w', make_request H w = .ok w' ∧ w'.conn.response = w.conn.response ∧
      (w'.conn.on_read = w.conn.on_read
        ∨ ∃ cache_response, w'.conn.on_read = some (.validating cache_response)) := by
  by_cases hcond : (!H.request_is_validating req
      && w.proxy.cache.contain (H.request_get_host req ++ H.request_get_URI req)) = true
  · have hval : H.request_is_validating req = false := by
      cases hv : H.request_is_validating req
      · rfl
      · simp [hv] at hcond
    have hcont : w.proxy.cache.contain
        (H.request_get_host req ++ H.request_get_URI req) = true := by
      simpa [hval] using hcond
    obtain ⟨v, c', hget, _⟩ := lru_cache_get_of_contain _ _ hcont
    refine ⟨_, make_request_cached_eq H w req v c' hreq hval hcont hget, ?_, Or.inr ⟨v, ?_⟩⟩
    · simp [write_to_server, set_server_on_read_write]
    · simp [write_to_server, set_server_on_read_write]
  · refine ⟨_, make_request_plain_eq H w req hreq (by simpa using hcond), ?_, Or.inl ?_⟩
    · simp [write_to_server]
    · simp [write_to_server]

/-- A successful read under `server_on_read` or under the validating handler,
with a response at hand, adds the bytes to that response. -/
theorem upstream_data_read_appends (H : http_handler Request Response)
    (w : world Request Response) (resp : Response) (ident : Int) (b : Text)
    (hresp : w.conn.response = some resp)
    (hmode : w.conn.on_read = some .server_on_read
      ∨ ∃ cache_response, w.conn.on_read = some (.validating cache_response)) :
    ∃ w', upstream_read_event H w
        { ident := ident, EV_EOF := false, data := b.length } (.ok b) = .ok w' ∧
      w'.conn.response = some (H.response_add_part resp b) := by
  have hfeed : feed_response H w.conn.response b = H.response_add_part resp b := by
    rw [hresp]; rfl
  rcases hmode with hmode | ⟨cache_response, hmode⟩
  · refine ⟨write_to_client (collect_response H w b) b, ?_, ?_⟩
    · rw [upstream_read_event_server_on_read H w _ _ hmode]
      unfold server_on_read
      simp only [Bool.false_and, Bool.false_eq_true, if_false, world.emit, collect_response]
    · rw [(write_to_client_fields _ _).2.2.2.1, (collect_response_fields H w b).2.2.2.1, hfeed]
  · rw [upstream_read_event_validating H cache_response w _ _ hmode, validating_on_read_data]
    split
    · split
      · exact ⟨_, rfl, by
          simp only [set_server_on_read_write]
          rw [(write_to_client_fields _ _).2.2.2.1, (collect_response_fields H w b).2.2.2.1, hfeed]⟩
      · exact ⟨_, rfl, by
          simp only [set_server_on_read_write]
          rw [(write_to_client_fields _ _).2.2.2.1, (collect_response_fields H w b).2.2.2.1, hfeed]⟩
    · exact ⟨_, rfl, by rw [(collect_response_fields H w b).2.2.2.1, hfeed]⟩

/-- C13, what the code does: when `server_on_read` handles an upstream EOF with
a response at hand, it resets the upstream socket and leaves the response in
place; `connect_to_server` for the next request opens a new socket and leaves
the response in place too; so the first bytes read from the new upstream
connection are added to the response of the previous exchange with
`add_part`, and no new response is started. -/
theorem response_kept_across_upstream_eof (H : http_handler Request Response)
    (w : world Request Response) (resp : Response) (req : Request)
    (event : kevent) (r : recv_result) (ident : Int) (b : Text)
    (hresp : w.conn.response = some resp)
    (hmode : w.conn.on_read = some .server_on_read)
    (heof : event.EV_EOF = true) (hdata : event.data = 0) :
    ∃ w₁ w₂ w₃ w₄,
      upstream_read_event H w event r = .ok w₁ ∧
      w₁.conn.server = { ident := -1, msg_queue := [] } ∧
      w₁.conn.response = some resp ∧
      connect_to_server H { w₁ with conn := { w₁.conn with request := some req } } = .ok w₂ ∧
      w₂.conn.server = { ident := (w.next_ident : Int), msg_queue := [] } ∧
      w₂.log = w₁.log ++ [effect.open_socket w.conn.client_addr (w.next_ident : Int)] ∧
      w₂.conn.response = some resp ∧
      make_request H w₂ = .ok w₃ ∧
      upstream_read_event H w₃
        { ident := ident, EV_EOF := false, data := b.length } (.ok b) = .ok w₄ ∧
      w₄.conn.response = some (H.response_add_part resp b) := by
  have h₁ : upstream_read_event H w event r
      = .ok (reset_server (deregistrate_server (try_to_cache H w))) := by
    rw [upstream_read_event_server_on_read H w _ _ hmode]
    unfold server_on_read
    simp [heof, hdata]
  have hf := try_to_cache_fields H w
  have h₂ : connect_to_server H
      { reset_server (deregistrate_server (try_to_cache H w)) with
        conn := { (reset_server (deregistrate_server (try_to_cache H w))).conn with
          request := some req } }
      = .ok (open_server H req
          { reset_server (deregistrate_server (try_to_cache H w)) with
            conn := { (reset_server (deregistrate_server (try_to_cache H w))).conn with
              request := some req } }) := by
    unfold connect_to_server
    simp [reset_server]
  obtain ⟨w₃, h₃, hr₃, hm₃⟩ := make_request_response H
    (open_server H req
      { reset_server (deregistrate_server (try_to_cache H w)) with
        conn := { (reset_server (deregistrate_server (try_to_cache H w))).conn with
          request := some req } }) req
    (by simp [open_server, set_server_on_read_write])
  have hresp₃ : w₃.conn.response = some resp := by
    rw [hr₃]
    simp [open_server, set_server_on_read_write, reset_server, deregistrate_server, hf, hresp]
  have hmode₃ : w₃.conn.on_read = some .server_on_read
      ∨ ∃ cache_response, w₃.conn.on_read = some (.validating cache_response) := by
    rcases hm₃ with h | h
    · left
      rw [h]
      simp [open_server, set_server_on_read_write]
    · exact Or.inr h
  obtain ⟨w₄, h₄, hr₄⟩ := upstream_data_read_appends H w₃ resp ident b hresp₃ hmode₃
  refine ⟨_, _, w₃, w₄, h₁, ?_, ?_, h₂, ?_, ?_, ?_, h₃, h₄, hr₄⟩
  · simp [reset_server]
  · simp [reset_server, deregistrate_server, hf, hresp]
  · simp [open_server, set_server_on_read_write, reset_server, deregistrate_server, hf]
  · simp [open_server, set_server_on_read_write, reset_server, deregistrate_server, hf]
  · simp [open_server, set_server_on_read_write, reset_server, deregistrate_server, hf, hresp]

/-- C13, at a concrete run: the origin's response `example_response` has been
read when the upstream closes; for the next request a new socket is opened, and
the first read from it, `next_response`, ends up behind `example_response` in
the one response of the connection, which is not the response that consists of
`next_response`. -/
theorem response_kept_across_upstream_eof_witness :
    (∃ w₁ w₂ w₃ w₄,
      upstream_read_event spec_http served_world
        { ident := 5, EV_EOF := true, data := 0 } (.ok []) = .ok w₁ ∧
      w₁.conn.server = { ident := -1, msg_queue := [] } ∧
      w₁.conn.response = some example_response ∧
      connect_to_server spec_http
        { w₁ with conn := { w₁.conn with request := some pipelined_request } } = .ok w₂ ∧
      w₂.conn.server = { ident := (served_world.next_ident : Int), msg_queue := [] } ∧
      w₂.log = w₁.log ++ [effect.open_socket served_world.conn.client_addr
        (served_world.next_ident : Int)] ∧
      w₂.conn.response = some example_response ∧
      make_request spec_http w₂ = .ok w₃ ∧
      upstream_read_event spec_http w₃
        { ident := 6, EV_EOF := false, data := next_response.length } (.ok next_response)
        = .ok w₄ ∧
      w₄.conn.response = some (spec_http.response_add_part example_response next_response)) ∧
    spec_http.response_add_part example_response next_response
      = example_response ++ next_response ∧
    spec_http.response_add_part example_response next_response
      ≠ spec_http.response_new next_response :=
  ⟨response_kept_across_upstream_eof spec_http served_world example_response
      pipelined_request { ident := 5, EV_EOF := true, data := 0 } (.ok []) 6 next_response
      rfl rfl rfl rfl,
   rfl, by decide⟩

end Proxy
